import Mathlib

/-!
# Verification of the cw-schema-codegen playground serialization scheme

Shallow embedding of `packages/cw-schema-codegen/playground/playground.py`:
the classes `SomeEnum`, `UnitStructure`, `TupleStructure`, `NamedStructure`
and their `serialize`/`deserialize` methods, together with a model of the
Python `json` module (`json.loads` / `json.dumps` with default settings) and
of the `dataclasses_json` library calls (`from_json` / `to_json`) that the
playground delegates to.  Claims about the encoding convention are stated
and settled against these definitions.
-/

/-! ## JSON values

Model of the Python `json` module's data domain as produced by `json.loads`:
`None`, `bool`, `int`, `str`, `list`, `dict`.  The playground's vectors use
no floats, so JSON numbers are modelled as integers.  Python dicts preserve
insertion order; we model a dict as an ordered association list.
-/

inductive Json where
  | null : Json
  | bool (b : Bool) : Json
  | int (n : Int) : Json
  | str (s : String) : Json
  | arr (elems : List Json) : Json
  | obj (fields : List (String × Json)) : Json

namespace Json

/-- Decimal digits of `n`, most significant first; `fuel` bounds the
recursion depth (`fuel ≥ n` suffices) and `n = 0` yields `[]`. -/
def natDataAux : Nat → Nat → List Char
  | 0, _ => []
  | fuel + 1, n =>
    if n = 0 then []
    else natDataAux fuel (n / 10) ++ [Char.ofNat (48 + n % 10)]

/-- Decimal digits of `m`, most significant first; `0` prints as `"0"`. -/
def natData (m : Nat) : List Char :=
  if m = 0 then ['0'] else natDataAux m m

/-- Decimal rendering of an integer, as Python `repr`/`json.dumps` prints it. -/
def intData (n : Int) : List Char :=
  if n < 0 then '-' :: natData n.natAbs else natData n.natAbs

/-- Characters that `json.dumps` (default `ensure_ascii=True`) emits verbatim
inside a string literal: printable ASCII other than `"` and `\`. -/
def plainChar (c : Char) : Bool :=
  c ≠ '"' && c ≠ '\\' && 32 ≤ c.toNat && c.toNat ≤ 126

/-- Hex digit character for `x < 16`. -/
def hexChar (x : Nat) : Char :=
  if x < 10 then Char.ofNat (48 + x) else Char.ofNat (87 + x)

/-- `json.dumps` escaping of one character: `"` and `\` get a backslash, any
other non-printable-ASCII character is emitted as `\uXXXX` (we only need the
basic-multilingual-plane form; the playground's data is plain ASCII). -/
def escapeChar (c : Char) : List Char :=
  if c = '"' then ['\\', '"']
  else if c = '\\' then ['\\', '\\']
  else if 32 ≤ c.toNat && c.toNat ≤ 126 then [c]
  else ['\\', 'u', hexChar (c.toNat / 4096 % 16), hexChar (c.toNat / 256 % 16),
        hexChar (c.toNat / 16 % 16), hexChar (c.toNat % 16)]

/-- String literal body as `json.dumps` emits it. -/
def strData (s : String) : List Char :=
  '"' :: (s.data.flatMap escapeChar) ++ ['"']

mutual

/-- Output of Python `json.dumps` with default settings (item separator
`", "`, key separator `": "`), as a character list. -/
def dumpsData : Json → List Char
  | .null => ("null" : String).data
  | .bool true => ("true" : String).data
  | .bool false => ("false" : String).data
  | .int n => intData n
  | .str s => strData s
  | .arr [] => ['[', ']']
  | .arr (x :: xs) => '[' :: (dumpsData x ++ dumpsTail xs ++ [']'])
  | .obj [] => ['\x7b', '\x7d']
  | .obj (kv :: kvs) =>
      '\x7b' :: (strData kv.1 ++ ':' :: ' ' :: dumpsData kv.2 ++ dumpsObjTail kvs ++ ['\x7d'])
termination_by structural j => j

/-- Remaining array elements, each preceded by `", "`. -/
def dumpsTail : List Json → List Char
  | [] => []
  | x :: xs => ',' :: ' ' :: (dumpsData x ++ dumpsTail xs)

/-- Remaining object entries, each preceded by `", "`. -/
def dumpsObjTail : List (String × Json) → List Char
  | [] => []
  | kv :: kvs => ',' :: ' ' :: (strData kv.1 ++ ':' :: ' ' :: dumpsData kv.2 ++ dumpsObjTail kvs)

end

/-- Python `json.dumps` with default settings. -/
def dumps (j : Json) : String := ⟨dumpsData j⟩

end Json

/-! ## JSON parser (model of `json.loads`)

A fuel-indexed recursive-descent parser over character lists.  It accepts
the JSON subset the playground exercises (no floats, no `\uXXXX` escapes);
on that subset it agrees with Python's `json.loads`, including tolerance of
whitespace and rejection of trailing garbage.
-/

namespace Json

def isWs (c : Char) : Bool :=
  c = ' ' || c = '\t' || c = '\n' || c = '\r'

def skipWs : List Char → List Char
  | [] => []
  | c :: cs => if isWs c then skipWs cs else c :: cs

/-- Escape codes accepted inside string literals (as Python does; the
`\uXXXX` form is not needed by any vector and is rejected by this model). -/
def unescape (c : Char) : Option Char :=
  if c = '"' then some '"'
  else if c = '\\' then some '\\'
  else if c = '/' then some '/'
  else if c = 'b' then some (Char.ofNat 8)
  else if c = 'f' then some (Char.ofNat 12)
  else if c = 'n' then some '\n'
  else if c = 'r' then some '\r'
  else if c = 't' then some '\t'
  else none

mutual

/-- Parse a string-literal body (after the opening quote), returning the
content and the remainder after the closing quote. -/
def parseStringBody : List Char → Option (List Char × List Char)
  | [] => none
  | c :: cs =>
    if c = '"' then some ([], cs)
    else if c = '\\' then parseEscape cs
    else do
      let (s, r) ← parseStringBody cs
      some (c :: s, r)
termination_by structural l => l

/-- Parse the character after a backslash and the rest of the string body. -/
def parseEscape : List Char → Option (List Char × List Char)
  | [] => none
  | e :: cs => do
    let u ← unescape e
    let (s, r) ← parseStringBody cs
    some (u :: s, r)
termination_by structural l => l

end

/-- Consume a run of decimal digits, accumulating their value. -/
def parseDigits (acc : Nat) : List Char → Nat × List Char
  | [] => (acc, [])
  | c :: cs =>
    if c.isDigit then parseDigits (acc * 10 + (c.toNat - 48)) cs
    else (acc, c :: cs)

/-- Parse an integer literal (optional minus sign, at least one digit). -/
def parseInt : List Char → Option (Int × List Char)
  | [] => none
  | c :: cs =>
    if c = '-' then
      if (cs.head?.map Char.isDigit).getD false then
        let (m, r) := parseDigits 0 cs
        some (-(m : Int), r)
      else none
    else if c.isDigit then
      let (m, r) := parseDigits 0 (c :: cs)
      some ((m : Int), r)
    else none

mutual

/-- Parse one JSON value (leading whitespace allowed), returning it and the
unconsumed remainder. -/
def parseValue (fuel : Nat) (cs : List Char) : Option (Json × List Char) :=
  match fuel with
  | 0 => none
  | fuel + 1 =>
    match skipWs cs with
    | [] => none
    | c :: rest =>
      if c = 'n' then
        match rest with
        | 'u' :: 'l' :: 'l' :: r => some (.null, r)
        | _ => none
      else if c = 't' then
        match rest with
        | 'r' :: 'u' :: 'e' :: r => some (.bool true, r)
        | _ => none
      else if c = 'f' then
        match rest with
        | 'a' :: 'l' :: 's' :: 'e' :: r => some (.bool false, r)
        | _ => none
      else if c = '"' then do
        let (s, r) ← parseStringBody rest
        some (.str ⟨s⟩, r)
      else if c = '[' then
        match skipWs rest with
        | ']' :: r => some (.arr [], r)
        | other => do
          let (x, r) ← parseValue fuel other
          let (xs, r') ← parseArrTail fuel r
          some (.arr (x :: xs), r')
      else if c = '\x7b' then
        match skipWs rest with
        | '\x7d' :: r => some (.obj [], r)
        | other => do
          let (kv, r) ← parseEntry fuel other
          let (kvs, r') ← parseObjTail fuel r
          some (.obj (kv :: kvs), r')
      else
        match parseInt (c :: rest) with
        | some (n, r) => some (.int n, r)
        | none => none

/-- Parse the continuation of an array: either `]` or `, value ...`. -/
def parseArrTail (fuel : Nat) (cs : List Char) : Option (List Json × List Char) :=
  match fuel with
  | 0 => none
  | fuel + 1 =>
    match skipWs cs with
    | ']' :: r => some ([], r)
    | ',' :: r => do
      let (x, r') ← parseValue fuel r
      let (xs, r'') ← parseArrTail fuel r'
      some (x :: xs, r'')
    | _ => none

/-- Parse one `"key": value` entry of an object. -/
def parseEntry (fuel : Nat) (cs : List Char) : Option ((String × Json) × List Char) :=
  match fuel with
  | 0 => none
  | fuel + 1 =>
    match skipWs cs with
    | '"' :: rest => do
      let (k, r) ← parseStringBody rest
      match skipWs r with
      | ':' :: r' => do
        let (v, r'') ← parseValue fuel r'
        some ((⟨k⟩, v), r'')
      | _ => none
    | _ => none

/-- Parse the continuation of an object: either `}` or `, entry ...`. -/
def parseObjTail (fuel : Nat) (cs : List Char) :
    Option (List (String × Json) × List Char) :=
  match fuel with
  | 0 => none
  | fuel + 1 =>
    match skipWs cs with
    | '\x7d' :: r => some ([], r)
    | ',' :: r => do
      let (kv, r') ← parseEntry fuel r
      let (kvs, r'') ← parseObjTail fuel r'
      some (kv :: kvs, r'')
    | _ => none

end

/-- Model of Python `json.loads`: parse one value, allow trailing whitespace
only.  Duplicate object keys are kept in order in this model; no playground
input contains duplicates. -/
def loads (s : String) : Option Json :=
  match parseValue (s.data.length + 1) s.data with
  | some (j, rest) => if skipWs rest = [] then some j else none
  | none => none

end Json

/-! ## Python error model

Errors raised while (de)serializing.  The playground itself raises only the
bare `Exception` in `SomeEnum.deserialize`; the other constructors model the
exceptions raised by `json.loads`, `json.dumps` and `dataclasses_json`. -/

inductive PyErr where
  | exception (msg : String)
  | attributeError (msg : String)
  | typeError (msg : String)
  | jsonDecodeError (input : String)

/-! ## The `SomeEnum` dataclass (playground.py lines 13-45)

`SomeEnum` is a `@dataclass_json @dataclass` with five `Optional` fields,
each defaulting to `None` and configured (via `enum_field`) to be excluded
from serialization when `None`:

  Field1: Optional[VariantIndicator], Field2: Optional[tuple[int, int]],
  Field3: Optional[Field3Type], Field4: Optional[Iterable['SomeEnum']],
  Field5: Optional[Field5Type].

`VariantIndicator`, `Field3Type` and `Field5Type` are plain classes (not
dataclasses), which drives the library behavior modelled below.
-/

/-- A value sitting in the `Field1` slot.  `inst id` is a `VariantIndicator`
instance: the class defines no `__eq__`, so Python compares instances by
object identity, which we model with an identity tag — two instances are
`==`-equal exactly when they are the same object (same tag).  `raw j` is a
raw JSON value stored untouched in the slot by `from_json` (the library
does not decode plain classes). -/
inductive VIVal where
  | inst (id : Nat)
  | raw (j : Json)

/-- The `SomeEnum` dataclass value.  `Field3`/`Field5` slots hold raw JSON:
`Field3Type`/`Field5Type` are plain classes, so `dataclasses_json` stores
the parsed JSON fragment as-is (it "will not attempt to decode" non-dataclass
types).  Lean's structural equality on this model coincides with Python `==`
on the values the claims exercise: dataclass `__eq__` compares the tuple of
fields, `VariantIndicator` compares by identity (the tag), and parsed
ints/strings/lists/dicts compare structurally (every dict herein keeps its
single fixed key order). -/
inductive SomeEnum where
  | mk (Field1 : Option VIVal) (Field2 : Option (Int × Int)) (Field3 : Option Json)
      (Field4 : Option (List SomeEnum)) (Field5 : Option Json)

def SomeEnum.Field1 : SomeEnum → Option VIVal
  | .mk f1 _ _ _ _ => f1

def SomeEnum.Field2 : SomeEnum → Option (Int × Int)
  | .mk _ f2 _ _ _ => f2

def SomeEnum.Field3 : SomeEnum → Option Json
  | .mk _ _ f3 _ _ => f3

def SomeEnum.Field4 : SomeEnum → Option (List SomeEnum)
  | .mk _ _ _ f4 _ => f4

def SomeEnum.Field5 : SomeEnum → Option Json
  | .mk _ _ _ _ f5 => f5

/-- Python's `":" in s` test of `SomeEnum.deserialize`: substring
containment of a one-character needle is exactly character membership. -/
def pyIn (c : Char) (s : String) : Bool := s.data.contains c

/-- The dict entry contributed by one optional field: absent when `None`
(the `exclude` config), present under the field name otherwise. -/
def optEntry (k : String) : Option Json → List (String × Json)
  | none => []
  | some j => [(k, j)]

mutual

/-- Modelled library behavior — `dataclasses_json.to_json`, step 1: render
the dataclass as a JSON dict.  Fields carrying `config(exclude=lambda x: x
is None)` are omitted when `None`; present fields appear in declaration
order (Python dicts preserve insertion order).  A Python tuple is emitted
as a JSON array.  Returns `none` where Python's `json.dumps` raises
`TypeError`: when a slot holds a `VariantIndicator` instance, which is not
JSON-serializable. -/
def SomeEnum.toDict : SomeEnum → Option Json
  | .mk f1 f2 f3 f4 f5 => do
    let e1 ← match f1 with
      | none => pure []
      | some (.inst _) => none
      | some (.raw j) => pure [("Field1", j)]
    let e2 := optEntry "Field2" (f2.map fun p => Json.arr [Json.int p.1, Json.int p.2])
    let e3 := optEntry "Field3" f3
    let e4 ← match f4 with
      | none => pure ([] : List (String × Json))
      | some xs => do
        let js ← SomeEnum.toDictList xs
        pure [("Field4", Json.arr js)]
    let e5 := optEntry "Field5" f5
    pure (Json.obj (e1 ++ e2 ++ e3 ++ e4 ++ e5))
termination_by structural x => x

/-- Nested `SomeEnum` values inside `Field4` are rendered as dicts by the
same rule (the `exclude` config rides on the fields). -/
def SomeEnum.toDictList : List SomeEnum → Option (List Json)
  | [] => pure []
  | x :: xs => do
    let d ← SomeEnum.toDict x
    let ds ← SomeEnum.toDictList xs
    pure (d :: ds)
termination_by structural l => l

end

/-- Modelled library behavior — decoding `Optional[tuple[int, int]]`: `null`
gives `None`; a two-element array of ints gives the tuple (the library
materializes `typing` tuples as Python tuples); an array of any other
length raises the library's arity `TypeError` ("Number of types specified
in the collection type does not match number of elements in the
collection").  A two-element array of non-ints and a non-array value are
modelled as `TypeError` as well; no claim exercises those inputs. -/
def decodeField2 : Json → Except PyErr (Option (Int × Int))
  | .null => .ok none
  | .arr xs =>
    if xs.length = 2 then
      match xs with
      | [.int a, .int b] => .ok (some (a, b))
      | _ => .error (.typeError "tuple element not an int")
    else .error (.typeError "Number of types specified in the collection type does not match number of elements in the collection")
  | _ => .error (.typeError "value for a tuple field is not a collection")

/-- Modelled library behavior — decoding an `Optional` field whose inner
type is a plain (non-dataclass) class: an explicit `null` decodes to
`None`; any other value is stored raw, undecoded. -/
def decodeRaw : Json → Option Json
  | .null => none
  | j => some j

mutual

/-- Modelled library behavior — `dataclasses_json.from_json`, step 2
(`_decode_dataclass` for `SomeEnum`): the input must be a dict (anything
else fails with `AttributeError` when the library calls `.items()` on it).
Keys that are not declared fields are silently ignored; declared fields
missing from the dict keep their default `None`.  An explicit `null` value
decodes an `Optional` field to `None`; `Field1`/`Field3`/`Field5` otherwise
keep the raw JSON fragment (plain classes are not decoded); `Field2` decodes
per `decodeField2`; `Field4` decodes a JSON array element-by-element,
each element a `SomeEnum` dict, recursively. -/
def SomeEnum.from_dict : Json → Except PyErr SomeEnum
  | .obj kvs => SomeEnum.walk none none none none none kvs
  | _ => .error (.attributeError "input to from_dict has no attribute items")
termination_by structural j => j

/-- Left-to-right walk over the dict entries, updating the five slots (for a
duplicated key the last occurrence wins, as in a Python dict literal). -/
def SomeEnum.walk (f1 : Option VIVal) (f2 : Option (Int × Int)) (f3 : Option Json)
    (f4 : Option (List SomeEnum)) (f5 : Option Json) :
    List (String × Json) → Except PyErr SomeEnum
  | [] => .ok (.mk f1 f2 f3 f4 f5)
  | (k, v) :: rest =>
    if k = "Field1" then
      SomeEnum.walk ((decodeRaw v).map VIVal.raw) f2 f3 f4 f5 rest
    else if k = "Field2" then
      match decodeField2 v with
      | .error e => .error e
      | .ok o => SomeEnum.walk f1 o f3 f4 f5 rest
    else if k = "Field3" then
      SomeEnum.walk f1 f2 (decodeRaw v) f4 f5 rest
    else if k = "Field4" then
      match SomeEnum.decodeField4 v with
      | .error e => .error e
      | .ok o => SomeEnum.walk f1 f2 f3 o f5 rest
    else if k = "Field5" then
      SomeEnum.walk f1 f2 f3 f4 (decodeRaw v) rest
    else
      SomeEnum.walk f1 f2 f3 f4 f5 rest
termination_by structural l => l

/-- Modelled library behavior — decoding `Optional[Iterable['SomeEnum']]`:
`null` gives `None`; an array decodes element-by-element into a list. -/
def SomeEnum.decodeField4 : Json → Except PyErr (Option (List SomeEnum))
  | .null => .ok none
  | .arr xs =>
    match SomeEnum.fromList xs with
    | .error e => .error e
    | .ok es => .ok (some es)
  | _ => .error (.typeError "value for an iterable field is not a collection")
termination_by structural j => j

/-- Elements of an `Iterable[SomeEnum]` are decoded recursively as
`SomeEnum` dicts and collected into a list. -/
def SomeEnum.fromList : List Json → Except PyErr (List SomeEnum)
  | [] => .ok []
  | x :: xs =>
    match SomeEnum.from_dict x with
    | .error e => .error e
    | .ok e =>
      match SomeEnum.fromList xs with
      | .error e => .error e
      | .ok es => .ok (e :: es)
termination_by structural l => l

end

/-- Modelled library behavior — `SomeEnum.from_json`: `json.loads`, then
`from_dict` (a failed parse raises `json.JSONDecodeError`). -/
def SomeEnum.from_json (s : String) : Except PyErr SomeEnum :=
  match Json.loads s with
  | none => .error (.jsonDecodeError s)
  | some j => SomeEnum.from_dict j

/-- The identity tag of the `VariantIndicator` object freshly allocated by
`SomeEnum.deserialize`.  Python guarantees the new object is distinct from
every previously constructed instance; we reserve tag `0` for it and give
pre-existing instances other tags where a claim needs one. -/
def freshVariantIndicatorId : Nat := 0

/-- `SomeEnum.deserialize` (playground.py lines 32-39).  The branch is
chosen by testing whether the character ':' occurs anywhere in the RAW
INPUT TEXT (Python `":" in json`) — not by parsing: without a colon the
input must be exactly the text `"Field1"` (quotes included) or an
`Exception` carrying the raw input is raised; with a colon the input goes
to `from_json`. -/
def SomeEnum.deserialize (json : String) : Except PyErr SomeEnum :=
  if !(pyIn ':' json) then
    if json = "\"Field1\"" then
      .ok (.mk (some (.inst freshVariantIndicatorId)) none none none none)
    else
      .error (.exception ("Deserialization error, undefined variant: " ++ json))
  else
    SomeEnum.from_json json

/-- `SomeEnum.serialize` (playground.py lines 41-45): a set `Field1` (any
non-`None` content) short-circuits to the bare text `"Field1"`; otherwise
`to_json`, i.e. `json.dumps` of the `None`-excluding dict. -/
def SomeEnum.serialize (x : SomeEnum) : Except PyErr String :=
  if x.Field1.isSome then .ok "\"Field1\""
  else
    match x.toDict with
    | some d => .ok (Json.dumps d)
    | none => .error (.typeError "Object of type VariantIndicator is not JSON serializable")

/-! ## The `UnitStructure` dataclass (playground.py lines 47-57) -/

/-- A dataclass with no fields; dataclass `__eq__` makes any two instances
equal. -/
structure UnitStructure where

/-- `UnitStructure.deserialize` (playground.py lines 50-54).  On `"null"`
it returns a fresh `UnitStructure()`.  In the `else` branch the source
CONSTRUCTS `Exception(f"Deserialization error, undefined value: {json}")`
but never raises it (the `raise` keyword is missing), so the function
falls through and returns Python `None` — modelled as `ok none`.  No input
makes this function raise. -/
def UnitStructure.deserialize (json : String) : Except PyErr (Option UnitStructure) :=
  if json = "null" then .ok (some ⟨⟩) else .ok none

/-- `UnitStructure.serialize` (playground.py lines 56-57): the fixed text
`null`. -/
def UnitStructure.serialize (_ : UnitStructure) : String := "null"

/-! ## The `TupleStructure` dataclass (playground.py lines 59-68) -/

/-- A dataclass with the single field `Tuple: tuple[int, str, int]`. -/
structure TupleStructure where
  Tuple : Int × String × Int

/-- Python dict lookup on the parsed object (a duplicated key in the JSON
text leaves the last value in the dict). -/
def lookupKey (k : String) : List (String × Json) → Option Json
  | [] => none
  | (k', v) :: rest =>
    match lookupKey k rest with
    | some r => some r
    | none => if k' = k then some v else none

/-- Modelled library behavior — decoding `tuple[int, str, int]`: a
three-element array of the right shapes gives the tuple; an array of any
other length raises the library's arity `TypeError`; other values raise
`TypeError` as well (no claim exercises them). -/
def decodeTuple3 : Json → Except PyErr (Int × String × Int)
  | .arr xs =>
    if xs.length = 3 then
      match xs with
      | [.int a, .str s, .int b] => .ok (a, s, b)
      | _ => .error (.typeError "tuple element of the wrong shape")
    else .error (.typeError "Number of types specified in the collection type does not match number of elements in the collection")
  | _ => .error (.typeError "value for a tuple field is not a collection")

/-- Modelled library behavior — `_decode_dataclass` for `TupleStructure`:
the input must be a dict; the declared field `Tuple` must be present (a
field without a default that is missing from the dict is omitted from the
constructor call, and the dataclass `__init__` raises `TypeError`); other
keys are ignored. -/
def TupleStructure.from_dict : Json → Except PyErr TupleStructure
  | .obj kvs =>
    match lookupKey "Tuple" kvs with
    | none => .error (.typeError "missing 1 required positional argument: Tuple")
    | some v =>
      match decodeTuple3 v with
      | .error e => .error e
      | .ok t => .ok ⟨t⟩
  | _ => .error (.attributeError "input to from_dict has no attribute items")

/-- Modelled library behavior — `TupleStructure.from_json`. -/
def TupleStructure.from_json (s : String) : Except PyErr TupleStructure :=
  match Json.loads s with
  | none => .error (.jsonDecodeError s)
  | some j => TupleStructure.from_dict j

/-- `TupleStructure.deserialize` (playground.py lines 64-65): the raw input
is spliced into the f-string `'{ "Tuple": ... }'` and the result parsed. -/
def TupleStructure.deserialize (json : String) : Except PyErr TupleStructure :=
  TupleStructure.from_json ("\x7b \"Tuple\": " ++ json ++ " \x7d")

/-- `TupleStructure.serialize` (playground.py lines 67-68):
`json.dumps(self.Tuple)` — the bare payload array, without the `Tuple`
key wrapper. -/
def TupleStructure.serialize (t : TupleStructure) : String :=
  Json.dumps (.arr [.int t.Tuple.1, .str t.Tuple.2.1, .int t.Tuple.2.2])

/-! ## The `NamedStructure` dataclass (playground.py lines 70-81) -/

/-- A dataclass with fields `a: str`, `b: int`, `c: Iterable['SomeEnum']`,
all without defaults. -/
structure NamedStructure where
  a : String
  b : Int
  c : List SomeEnum

/-- Modelled library behavior — `_decode_dataclass` for `NamedStructure`:
the input must be a dict; each of the declared fields `a`, `b`, `c` must be
present (missing → constructor `TypeError`); keys that are not declared
fields are silently ignored.  `c` is decoded element-by-element as
`SomeEnum` dicts.  (The library stores primitive-typed fields without type
checking; this model requires `a`/`b` to be a string/integer — no claim
exercises mistyped primitives.) -/
def NamedStructure.from_dict : Json → Except PyErr NamedStructure
  | .obj kvs => do
    let va ← match lookupKey "a" kvs with
      | none => .error (.typeError "missing 1 required positional argument: a")
      | some (.str s) => .ok s
      | some _ => .error (.typeError "field a of the wrong shape")
    let vb ← match lookupKey "b" kvs with
      | none => .error (.typeError "missing 1 required positional argument: b")
      | some (.int n) => .ok n
      | some _ => .error (.typeError "field b of the wrong shape")
    let vc ← match lookupKey "c" kvs with
      | none => .error (.typeError "missing 1 required positional argument: c")
      | some (.arr xs) => SomeEnum.fromList xs
      | some _ => .error (.typeError "value for an iterable field is not a collection")
    .ok ⟨va, vb, vc⟩
  | _ => .error (.attributeError "input to from_dict has no attribute items")

/-- Modelled library behavior — `NamedStructure.from_json`. -/
def NamedStructure.from_json (s : String) : Except PyErr NamedStructure :=
  match Json.loads s with
  | none => .error (.jsonDecodeError s)
  | some j => NamedStructure.from_dict j

/-- `NamedStructure.deserialize` (playground.py lines 77-78): straight
`from_json`, no dispatch of any kind. -/
def NamedStructure.deserialize (json : String) : Except PyErr NamedStructure :=
  NamedStructure.from_json json

/-- Modelled library behavior — `NamedStructure.to_json`, step 1: the dict
of the three fields in declaration order (these fields carry no `exclude`
config, so all three always appear); fails (`json.dumps` `TypeError`) only
if a nested `SomeEnum` holds a `VariantIndicator` instance. -/
def NamedStructure.toDict (n : NamedStructure) : Option Json := do
  let cs ← SomeEnum.toDictList n.c
  pure (Json.obj [("a", .str n.a), ("b", .int n.b), ("c", .arr cs)])

/-- `NamedStructure.serialize` (playground.py lines 80-81): `self.to_json()`. -/
def NamedStructure.serialize (n : NamedStructure) : Except PyErr String :=
  match n.toDict with
  | some d => .ok (Json.dumps d)
  | none => .error (.typeError "Object of type VariantIndicator is not JSON serializable")

/-! ## Well-formedness and size measures

`wfJson` carves out the JSON values on which the model's printer/parser
pair is exact: strings (including object keys) made of printable-ASCII
characters that `json.dumps` emits verbatim.  (Python also round-trips
strings needing escapes; no playground vector does, and the model leaves
them outside `wfJson`.)  `jsize` is the fuel budget the parser needs. -/

namespace Json

def isNull : Json → Bool
  | .null => true
  | _ => false

/-- Strings the printer emits verbatim (no escaping). -/
def wfStr (s : String) : Bool := s.data.all plainChar

mutual

def wfJson : Json → Bool
  | .null => true
  | .bool _ => true
  | .int _ => true
  | .str s => wfStr s
  | .arr xs => wfArr xs
  | .obj kvs => wfObj kvs
termination_by structural j => j

def wfArr : List Json → Bool
  | [] => true
  | x :: xs => wfJson x && wfArr xs
termination_by structural l => l

def wfObj : List (String × Json) → Bool
  | [] => true
  | (k, v) :: kvs => wfStr k && wfJson v && wfObj kvs
termination_by structural l => l

end

mutual

/-- Fuel needed by `parseValue` to consume the printed form of `j`. -/
def jsize : Json → Nat
  | .null => 1
  | .bool _ => 1
  | .int _ => 1
  | .str _ => 1
  | .arr xs => 1 + jsizeArr xs
  | .obj kvs => 2 + jsizeObj kvs
termination_by structural j => j

def jsizeArr : List Json → Nat
  | [] => 0
  | x :: xs => 1 + jsize x + jsizeArr xs
termination_by structural l => l

def jsizeObj : List (String × Json) → Nat
  | [] => 0
  | kv :: kvs => 2 + jsize kv.2 + jsizeObj kvs
termination_by structural l => l

end

end Json

/-- Payload well-formedness for a raw-JSON slot (`Field3`/`Field5`): the
fragment is printer/parser-exact and is not `null` (an explicit `null`
decodes to `None`, i.e. the field unset, so `null` payloads cannot
round-trip). -/
def wfRawOpt : Option Json → Bool
  | none => true
  | some j => Json.wfJson j && !j.isNull

mutual

/-- The `SomeEnum` values whose dict rendering decodes back to the same
value: no `VariantIndicator` instance anywhere (unserializable nested, and
compared by identity at top level), raw payloads well-formed and non-null,
nested `Field4` elements recursively so. -/
def SomeEnum.wfEnum : SomeEnum → Bool
  | .mk none _ f3 none f5 => wfRawOpt f3 && wfRawOpt f5
  | .mk none _ f3 (some xs) f5 => wfRawOpt f3 && wfRawOpt f5 && SomeEnum.wfEnumList xs
  | .mk (some _) _ _ _ _ => false
termination_by structural x => x

def SomeEnum.wfEnumList : List SomeEnum → Bool
  | [] => true
  | x :: xs => SomeEnum.wfEnum x && SomeEnum.wfEnumList xs
termination_by structural l => l

end

mutual

/-- Structural size of a `SomeEnum` value (drives strong induction). -/
def SomeEnum.esize : SomeEnum → Nat
  | .mk _ _ _ none _ => 1
  | .mk _ _ _ (some xs) _ => 1 + SomeEnum.esizeList xs
termination_by structural x => x

def SomeEnum.esizeList : List SomeEnum → Nat
  | [] => 0
  | x :: xs => 1 + SomeEnum.esize x + SomeEnum.esizeList xs
termination_by structural l => l

end

/-- The non-`Unit` `SomeEnum` values constructible from the schema with
exactly one variant set.  `Field2` carries a pair of ints; `Field3` the
named payload `{a: str, b: int}`; `Field4` a list of (well-formed) enum
values; `Field5` the self-referential named payload `{a: ...}` — the two
plain-class payloads are the raw JSON values the decoder itself produces.
Strings are restricted to the model's escape-free well-formed strings. -/
def ConstructibleEnum (x : SomeEnum) : Prop :=
  (∃ a b : Int, x = .mk none (some (a, b)) none none none) ∨
  (∃ (s : String) (n : Int), x = .mk none none (some (.obj [("a", .str s), ("b", .int n)])) none none ∧
    Json.wfStr s = true) ∨
  (∃ xs, x = .mk none none none (some xs) none ∧ SomeEnum.wfEnumList xs = true) ∨
  (∃ j, x = .mk none none none none (some (.obj [("a", j)])) ∧ Json.wfJson j = true)

/-! ## Helper lemmas -/

/-- Keys that are not declared `SomeEnum` fields are skipped by the decode
walk, leaving the slots untouched. -/
theorem SomeEnum.walk_unknown (f1 : Option VIVal) (f2 : Option (Int × Int)) (f3 : Option Json)
    (f4 : Option (List SomeEnum)) (f5 : Option Json) :
    ∀ kvs : List (String × Json),
      (∀ kv ∈ kvs, kv.1 ∉ (["Field1", "Field2", "Field3", "Field4", "Field5"] : List String)) →
      SomeEnum.walk f1 f2 f3 f4 f5 kvs = .ok (.mk f1 f2 f3 f4 f5)
  | [], _ => rfl
  | (k, v) :: rest, h => by
    have hk := h (k, v) (List.mem_cons_self _ _)
    simp only [List.mem_cons, List.not_mem_nil, or_false] at hk
    push_neg at hk
    obtain ⟨h1, h2, h3, h4, h5⟩ := hk
    rw [SomeEnum.walk, if_neg h1, if_neg h2, if_neg h3, if_neg h4, if_neg h5]
    exact SomeEnum.walk_unknown f1 f2 f3 f4 f5 rest (fun kv hkv => h kv (List.mem_cons_of_mem _ hkv))

/-! ## Claims -/

/-- C9 (confirmed): `SomeEnum.deserialize` selects between the Unit-variant
branch and the payload branch by testing whether ':' occurs anywhere in the
raw input text, not by parsing the JSON: every input containing a colon is
handed to `from_json` (the object branch), and in particular the bare JSON
string `"a:b"` never reaches the Unit-variant comparison — it fails inside
`from_json` with the library's `AttributeError`, not with the
undefined-variant `Exception`. -/
theorem claim_C9_colon_dispatch :
    (∀ s : String, pyIn ':' s = true → SomeEnum.deserialize s = SomeEnum.from_json s) ∧
    SomeEnum.deserialize "\"a:b\"" =
      .error (.attributeError "input to from_dict has no attribute items") := by
  constructor
  · intro s h
    rw [SomeEnum.deserialize, h]
    rfl
  · rfl

/-- Witness for C9 at the concrete input `"a:b"`. -/
theorem claim_C9_colon_dispatch_witness :
    pyIn ':' "\"a:b\"" = true ∧
      SomeEnum.deserialize "\"a:b\"" = SomeEnum.from_json "\"a:b\"" :=
  ⟨by decide, claim_C9_colon_dispatch.1 "\"a:b\"" (by decide)⟩

/-- C10 (confirmed): for every input other than exactly `"null"`,
`UnitStructure.deserialize` raises nothing and returns Python `None` (the
`Exception` in its else branch is constructed but never raised). -/
theorem claim_C10_unit_structure_returns_none :
    ∀ s : String, s ≠ "null" → UnitStructure.deserialize s = .ok none := by
  intro s h
  rw [UnitStructure.deserialize, if_neg h]

/-- Witness for C10 at the concrete input `{}`. -/
theorem claim_C10_unit_structure_returns_none_witness :
    UnitStructure.deserialize "\x7b\x7d" = .ok none :=
  claim_C10_unit_structure_returns_none "\x7b\x7d" (by decide)

/-- C2 (counterexample): the claim "deserializing any JSON string that does
not exactly equal the name of some Unit variant fails with
UnknownVariantError carrying that string" fails at the JSON string
`"a:b"`: it parses as a JSON string, is not a variant name, yet because the
raw text contains a colon it is routed to the object branch and fails with
the library's `AttributeError` — not with the undefined-variant `Exception`
carrying the input. -/
theorem claim_C2_counterexample :
    Json.loads "\"a:b\"" = some (.str "a:b") ∧
    SomeEnum.deserialize "\"a:b\"" =
      .error (.attributeError "input to from_dict has no attribute items") ∧
    SomeEnum.deserialize "\"a:b\"" ≠
      .error (.exception ("Deserialization error, undefined variant: " ++ "\"a:b\"")) := by
  refine ⟨rfl, rfl, ?_⟩
  intro h
  have h2 : (Except.error (PyErr.attributeError "input to from_dict has no attribute items") :
      Except PyErr SomeEnum) =
      .error (.exception ("Deserialization error, undefined variant: " ++ "\"a:b\"")) := h
  simp at h2

/-- C2 (corrected): serializing any value with `Field1` set yields the bare
text `"Field1"` and deserializing that exact text returns the `Field1`
variant; a COLON-FREE input other than the exact text `"Field1"` fails with
the undefined-variant `Exception` carrying the raw input; but an input
containing a colon (even a bare JSON string such as `"a:b"`) is routed to
the object branch instead and fails there with a different error. -/
theorem claim_C2_amended :
    (∀ x : SomeEnum, x.Field1.isSome = true → SomeEnum.serialize x = .ok "\"Field1\"") ∧
    SomeEnum.deserialize "\"Field1\"" =
      .ok (.mk (some (.inst freshVariantIndicatorId)) none none none none) ∧
    (∀ s : String, pyIn ':' s = false → s ≠ "\"Field1\"" →
      SomeEnum.deserialize s =
        .error (.exception ("Deserialization error, undefined variant: " ++ s))) ∧
    SomeEnum.deserialize "\"a:b\"" =
      .error (.attributeError "input to from_dict has no attribute items") := by
  refine ⟨?_, rfl, ?_, rfl⟩
  · intro x h
    rw [SomeEnum.serialize, if_pos h]
  · intro s hcolon hne
    rw [SomeEnum.deserialize, hcolon]
    simp [hne]

/-- Witness for C2 at concrete inputs. -/
theorem claim_C2_amended_witness :
    SomeEnum.serialize (.mk (some (.inst 3)) none none none none) = .ok "\"Field1\"" ∧
    SomeEnum.deserialize "\"nope\"" =
      .error (.exception ("Deserialization error, undefined variant: " ++ "\"nope\"")) :=
  ⟨claim_C2_amended.1 (.mk (some (.inst 3)) none none none none) rfl,
   claim_C2_amended.2.2.1 "\"nope\"" (by decide) (by decide)⟩

/-- C1 (counterexample): `decode(encode(x)) == x` fails at the simplest
constructible value, the Unit variant itself.  `x` holds a
`VariantIndicator` instance (identity tag 1); serializing gives the text
`"Field1"`, and deserializing that constructs a FRESH `VariantIndicator`
(tag 0, distinct from every pre-existing object).  Python's dataclass
`__eq__` compares the field tuples and `VariantIndicator` — defining no
`__eq__` of its own — compares by object identity, so the round-tripped
value is not `==`-equal to `x`. -/
theorem claim_C1_counterexample :
    SomeEnum.serialize (.mk (some (.inst 1)) none none none none) = .ok "\"Field1\"" ∧
    SomeEnum.deserialize "\"Field1\"" = .ok (.mk (some (.inst 0)) none none none none) ∧
    SomeEnum.mk (some (.inst 0)) none none none none ≠
      SomeEnum.mk (some (.inst 1)) none none none none := by
  refine ⟨rfl, rfl, ?_⟩
  intro h
  injection h with h1 h2 h3 h4 h5
  simp at h1

/-- C3 (counterexample): the claim "a JSON object with zero keys or more
than one key fails with AmbiguousVariantError" fails on both of its own
examples.  `{"A":1,"B":2}` (two keys) does not fail at all: both keys are
silently ignored and an enum with no variant set is returned.  `{}` (zero
keys) contains no colon, so it takes the string branch and fails with the
undefined-variant `Exception` — no single-key check is ever performed. -/
theorem claim_C3_counterexample :
    SomeEnum.deserialize "\x7b\"A\":1,\"B\":2\x7d" = .ok (.mk none none none none none) ∧
    SomeEnum.deserialize "\x7b\x7d" =
      .error (.exception "Deserialization error, undefined variant: \x7b\x7d") :=
  ⟨rfl, rfl⟩

/-- C3 (corrected): the code has no `AmbiguousVariantError` and no key-count
check.  `{}` fails, but via the colon dispatch: lacking a colon it is
compared (unsuccessfully) against the text `"Field1"` and the
undefined-variant `Exception` is raised.  A multi-key object such as
`{"A":1,"B":2}` is passed to `from_json`, which ignores every key that is
not a declared field: decoding SUCCEEDS and returns the enum with no
variant set — in general, any object all of whose keys are undeclared
decodes to the no-variant value. -/
theorem claim_C3_amended :
    SomeEnum.deserialize "\x7b\x7d" =
      .error (.exception "Deserialization error, undefined variant: \x7b\x7d") ∧
    SomeEnum.deserialize "\x7b\"A\":1,\"B\":2\x7d" = .ok (.mk none none none none none) ∧
    (∀ kvs : List (String × Json),
      (∀ kv ∈ kvs, kv.1 ∉ (["Field1", "Field2", "Field3", "Field4", "Field5"] : List String)) →
      SomeEnum.from_dict (.obj kvs) = .ok (.mk none none none none none)) := by
  refine ⟨rfl, rfl, fun kvs h => ?_⟩
  rw [SomeEnum.from_dict]
  exact SomeEnum.walk_unknown none none none none none kvs h

/-- Witness for C3 at the concrete two-key object. -/
theorem claim_C3_amended_witness :
    SomeEnum.from_dict (.obj [("A", .int 1), ("B", .int 2)]) =
      .ok (.mk none none none none none) :=
  claim_C3_amended.2.2 [("A", .int 1), ("B", .int 2)] (by decide)

/-- C7 (counterexample): a `UnitStructure` and the Unit variant `Field1` do
NOT serialize identically: the struct encodes to the sentinel `null`, the
variant to the bare quoted variant name `"Field1"`, and these JSON texts
differ. -/
theorem claim_C7_counterexample :
    UnitStructure.serialize ⟨⟩ = "null" ∧
    SomeEnum.serialize (.mk (some (.inst 0)) none none none none) = .ok "\"Field1\"" ∧
    ("null" : String) ≠ "\"Field1\"" :=
  ⟨rfl, rfl, by decide⟩

/-- C7 (corrected): each encodes per its own row of the table — every
`UnitStructure` serializes to the fixed sentinel `null`, and every enum
value with `Field1` set serializes to the bare string `"Field1"` — but the
two forms are distinct, not identical. -/
theorem claim_C7_amended :
    (∀ u : UnitStructure, u.serialize = "null") ∧
    (∀ x : SomeEnum, x.Field1.isSome = true → x.serialize = .ok "\"Field1\"") ∧
    ("null" : String) ≠ "\"Field1\"" := by
  refine ⟨fun u => rfl, fun x h => ?_, by decide⟩
  rw [SomeEnum.serialize, if_pos h]

/-- Witness for C7 at concrete values. -/
theorem claim_C7_amended_witness :
    UnitStructure.serialize ⟨⟩ = "null" ∧
    SomeEnum.serialize (.mk (some (.inst 2)) none none none none) = .ok "\"Field1\"" :=
  ⟨claim_C7_amended.1 ⟨⟩, claim_C7_amended.2.1 (.mk (some (.inst 2)) none none none none) rfl⟩

/-- C6 (confirmed): the standalone tuple struct round-trips `[10, "x", 12]`
(deserializing yields the payload `(10, "x", 12)` and re-serializing
reproduces the same array), and an array of the wrong arity such as
`[10, "x"]` fails with the arity error (the modelled library `TypeError`
complaining that the number of types does not match the number of
elements) — as does every array whose length is not 3. -/
theorem claim_C6_tuple_struct :
    TupleStructure.deserialize "[10, \"x\", 12]" = .ok ⟨(10, "x", 12)⟩ ∧
    TupleStructure.serialize ⟨(10, "x", 12)⟩ = "[10, \"x\", 12]" ∧
    TupleStructure.deserialize "[10, \"x\"]" =
      .error (.typeError "Number of types specified in the collection type does not match number of elements in the collection") ∧
    (∀ xs : List Json, xs.length ≠ 3 → decodeTuple3 (.arr xs) =
      .error (.typeError "Number of types specified in the collection type does not match number of elements in the collection")) := by
  refine ⟨rfl, rfl, rfl, fun xs h => ?_⟩
  rw [decodeTuple3, if_neg h]
  intro a s b hxs
  subst hxs
  simp at h

/-- Witness for C6 at the empty array. -/
theorem claim_C6_tuple_struct_witness :
    decodeTuple3 (.arr []) =
      .error (.typeError "Number of types specified in the collection type does not match number of elements in the collection") :=
  claim_C6_tuple_struct.2.2.2 [] (by decide)

/-- C4 (confirmed): serializing a value carrying any one non-Unit variant
payload produces the dump of a JSON object with exactly one key, that
variant's name (`Field2`/`Field3`/`Field4`/`Field5`); in particular
`{"Field2": [10, 12]}` deserializes to the payload `(10, 12)` and
re-serializing reproduces the same single-key object text. -/
theorem claim_C4_single_key_object :
    (∀ a b : Int, SomeEnum.serialize (.mk none (some (a, b)) none none none) =
      .ok (Json.dumps (.obj [("Field2", .arr [.int a, .int b])]))) ∧
    (∀ j : Json, SomeEnum.serialize (.mk none none (some j) none none) =
      .ok (Json.dumps (.obj [("Field3", j)]))) ∧
    (∀ (xs : List SomeEnum) (ds : List Json), SomeEnum.toDictList xs = some ds →
      SomeEnum.serialize (.mk none none none (some xs) none) =
      .ok (Json.dumps (.obj [("Field4", .arr ds)]))) ∧
    (∀ j : Json, SomeEnum.serialize (.mk none none none none (some j)) =
      .ok (Json.dumps (.obj [("Field5", j)]))) ∧
    SomeEnum.deserialize "\x7b\"Field2\": [10, 12]\x7d" =
      .ok (.mk none (some (10, 12)) none none none) ∧
    SomeEnum.serialize (.mk none (some (10, 12)) none none none) =
      .ok "\x7b\"Field2\": [10, 12]\x7d" := by
  refine ⟨fun a b => rfl, fun j => rfl, fun xs ds h => ?_, fun j => rfl, rfl, rfl⟩
  simp only [SomeEnum.serialize, SomeEnum.Field1, Option.isSome_none, Bool.false_eq_true,
    if_false, SomeEnum.toDict, h]
  rfl

/-- Witness for C4 at the empty `Field4` payload. -/
theorem claim_C4_single_key_object_witness :
    SomeEnum.serialize (.mk none none none (some []) none) =
      .ok (Json.dumps (.obj [("Field4", .arr [])])) :=
  claim_C4_single_key_object.2.2.1 [] [] rfl

/-- C5 (counterexample): the claim "an input containing a key not declared
in the schema fails with UnknownFieldError; no extra key is silently
ignored" fails: decoding a `NamedStructure` from an object carrying the
undeclared extra key `"d"` succeeds, silently dropping the extra key. -/
theorem claim_C5_counterexample :
    NamedStructure.deserialize "\x7b\"a\": \"x\", \"b\": 5, \"c\": [], \"d\": 0\x7d" =
      .ok ⟨"x", 5, []⟩ :=
  rfl

/-- C5 (corrected): a standalone `NamedStructure` requires each DECLARED
field to be present — an input missing `a`, `b` or `c` fails with the
dataclass constructor `TypeError` — but keys not declared in the schema are
silently ignored, and a `Named` VARIANT payload (`Field3`/`Field5`) is
stored as raw JSON with no field checking at all. -/
theorem claim_C5_amended :
    (∀ kvs : List (String × Json), lookupKey "a" kvs = none →
      NamedStructure.from_dict (.obj kvs) =
        .error (.typeError "missing 1 required positional argument: a")) ∧
    (∀ (kvs : List (String × Json)) (s : String),
      lookupKey "a" kvs = some (.str s) → lookupKey "b" kvs = none →
      NamedStructure.from_dict (.obj kvs) =
        .error (.typeError "missing 1 required positional argument: b")) ∧
    (∀ (kvs : List (String × Json)) (s : String) (n : Int),
      lookupKey "a" kvs = some (.str s) → lookupKey "b" kvs = some (.int n) →
      lookupKey "c" kvs = none →
      NamedStructure.from_dict (.obj kvs) =
        .error (.typeError "missing 1 required positional argument: c")) ∧
    NamedStructure.deserialize "\x7b\"a\": \"x\", \"b\": 5, \"c\": [], \"d\": 0\x7d" =
      .ok ⟨"x", 5, []⟩ ∧
    (∀ j : Json, j ≠ .null →
      SomeEnum.from_dict (.obj [("Field3", j)]) = .ok (.mk none none (some j) none none)) := by
  refine ⟨fun kvs ha => ?_, fun kvs s ha hb => ?_, fun kvs s n ha hb hc => ?_, rfl,
    fun j hj => ?_⟩
  · simp only [NamedStructure.from_dict, ha]
    rfl
  · simp only [NamedStructure.from_dict, ha, hb]
    rfl
  · simp only [NamedStructure.from_dict, ha, hb, hc]
    rfl
  · rw [SomeEnum.from_dict]
    have hdr : decodeRaw j = some j := by
      cases j <;> simp_all [decodeRaw]
    simp only [SomeEnum.walk, reduceIte, hdr]
    rfl

/-- Witness for C5 at concrete inputs. -/
theorem claim_C5_amended_witness :
    NamedStructure.from_dict (.obj [("a", .str "x"), ("b", .int 5)]) =
      .error (.typeError "missing 1 required positional argument: c") ∧
    SomeEnum.from_dict (.obj [("Field3", .int 7)]) =
      .ok (.mk none none (some (.int 7)) none none) :=
  ⟨claim_C5_amended.2.2.1 [("a", .str "x"), ("b", .int 5)] "x" 5 rfl rfl rfl,
   claim_C5_amended.2.2.2.2 (.int 7) (by intro h; cases h)⟩

namespace Json

/-- A decimal digit character rendered from `d < 10` is a digit. -/
theorem digitChar_isDigit (d : Nat) (h : d < 10) : (Char.ofNat (48 + d)).isDigit = true := by
  interval_cases d <;> decide

/-- Rendering then reading a decimal digit is the identity. -/
theorem digitChar_toNat (d : Nat) (h : d < 10) : (Char.ofNat (48 + d)).toNat - 48 = d := by
  interval_cases d <;> decide

/-- Digit characters are not whitespace. -/
theorem isDigit_not_ws (c : Char) (h : c.isDigit = true) : isWs c = false := by
  rcases Bool.eq_false_or_eq_true (isWs c) with h' | h'
  · exfalso
    simp only [isWs, Bool.or_eq_true, decide_eq_true_eq] at h'
    rcases h' with ((rfl | rfl) | rfl) | rfl <;> simp at h
  · exact h'

/-- All characters produced by `natDataAux` are digits. -/
theorem natDataAux_digits : ∀ fuel n : Nat, ∀ c ∈ natDataAux fuel n, c.isDigit = true := by
  intro fuel
  induction fuel with
  | zero => intro n c hc; simp [natDataAux] at hc
  | succ fuel ih =>
    intro n c hc
    rw [natDataAux] at hc
    by_cases hn : n = 0
    · simp [hn] at hc
    · rw [if_neg hn] at hc
      rcases List.mem_append.mp hc with h | h
      · exact ih _ c h
      · rcases List.mem_singleton.mp h with rfl
        exact digitChar_isDigit _ (Nat.mod_lt _ (by omega))

/-- Reading back the digits of `n` (most significant first) onto an
accumulator. -/
theorem natDataAux_foldl : ∀ fuel n acc : Nat, n ≤ fuel →
    (natDataAux fuel n).foldl (fun a c => a * 10 + (c.toNat - 48)) acc =
      acc * 10 ^ (natDataAux fuel n).length + n := by
  intro fuel
  induction fuel with
  | zero =>
    intro n acc h
    interval_cases n
    simp [natDataAux]
  | succ fuel ih =>
    intro n acc h
    rw [natDataAux]
    by_cases hn : n = 0
    · simp [hn]
    · rw [if_neg hn, List.foldl_append, List.length_append]
      rw [ih (n / 10) acc (by omega)]
      simp only [List.foldl_cons, List.foldl_nil, List.length_cons, List.length_nil]
      rw [digitChar_toNat _ (Nat.mod_lt _ (by omega))]
      rw [pow_succ]
      have : 10 * (n / 10) + n % 10 = n := Nat.div_add_mod n 10
      ring_nf
      omega

/-- `natDataAux` is nonempty on positive input with enough fuel. -/
theorem natDataAux_ne_nil (fuel n : Nat) (hn : 0 < n) (h : n ≤ fuel) :
    natDataAux fuel n ≠ [] := by
  cases fuel with
  | zero => omega
  | succ fuel =>
    rw [natDataAux, if_neg (by omega)]
    simp

end Json

namespace Json

/-- `parseDigits` consumes a block of digit characters wholesale. -/
theorem parseDigits_append : ∀ (A : List Char), (∀ c ∈ A, c.isDigit = true) →
    ∀ (acc : Nat) (rest : List Char),
    parseDigits acc (A ++ rest) =
      parseDigits (A.foldl (fun a c => a * 10 + (c.toNat - 48)) acc) rest := by
  intro A
  induction A with
  | nil => intro _ acc rest; rfl
  | cons c A ih =>
    intro h acc rest
    have hc := h c (List.mem_cons_self _ _)
    rw [List.cons_append, parseDigits, if_pos hc, List.foldl_cons]
    exact ih (fun d hd => h d (List.mem_cons_of_mem _ hd)) _ rest

/-- `parseDigits` stops at a non-digit (or the end). -/
theorem parseDigits_stop (acc : Nat) (rest : List Char)
    (hre : ∀ d, rest.head? = some d → d.isDigit = false) :
    parseDigits acc rest = (acc, rest) := by
  cases rest with
  | nil => rfl
  | cons c cs =>
    have := hre c rfl
    rw [parseDigits, if_neg (by simp [this])]

/-- All characters of `natData` are digits. -/
theorem natData_digits (m : Nat) : ∀ c ∈ natData m, c.isDigit = true := by
  intro c hc
  rw [natData] at hc
  by_cases hm : m = 0
  · rw [if_pos hm] at hc
    rcases List.mem_singleton.mp hc with rfl
    decide
  · exact natDataAux_digits m m c (by rwa [if_neg hm] at hc)

/-- `natData` is never empty. -/
theorem natData_ne_nil (m : Nat) : natData m ≠ [] := by
  rw [natData]
  by_cases hm : m = 0
  · simp [hm]
  · rw [if_neg hm]
    exact natDataAux_ne_nil m m (by omega) le_rfl

/-- Reading back `natData m` yields `m`. -/
theorem natData_foldl (m : Nat) :
    (natData m).foldl (fun a c => a * 10 + (c.toNat - 48)) 0 = m := by
  rw [natData]
  by_cases hm : m = 0
  · simp [hm]
  · rw [if_neg hm, natDataAux_foldl m m 0 le_rfl]
    simp

/-- `parseInt` inverts `natData` (nonnegative case). -/
theorem parseInt_natData (m : Nat) (rest : List Char)
    (hre : ∀ d, rest.head? = some d → d.isDigit = false) :
    parseInt (natData m ++ rest) = some ((m : Int), rest) := by
  obtain ⟨c, cs, hcs⟩ : ∃ c cs, natData m = c :: cs := by
    cases h : natData m with
    | nil => exact absurd h (natData_ne_nil m)
    | cons c cs => exact ⟨c, cs, rfl⟩
  have hc : c.isDigit = true := natData_digits m c (by rw [hcs]; exact List.mem_cons_self _ _)
  have hcne : ¬(c = '-') := by
    intro h
    rw [h] at hc
    exact absurd hc (by decide)
  rw [hcs, List.cons_append, parseInt, if_neg hcne, if_pos hc, ← List.cons_append, ← hcs]
  rw [parseDigits_append (natData m) (natData_digits m) 0 rest, natData_foldl,
    parseDigits_stop m rest hre]

/-- `parseInt` inverts `intData`. -/
theorem parseInt_intData (n : Int) (rest : List Char)
    (hre : ∀ d, rest.head? = some d → d.isDigit = false) :
    parseInt (intData n ++ rest) = some (n, rest) := by
  rw [intData]
  by_cases hn : n < 0
  · rw [if_pos hn, List.cons_append]
    obtain ⟨c, cs, hcs⟩ : ∃ c cs, natData n.natAbs = c :: cs := by
      cases h : natData n.natAbs with
      | nil => exact absurd h (natData_ne_nil _)
      | cons c cs => exact ⟨c, cs, rfl⟩
    have hc : c.isDigit = true := natData_digits _ c (by rw [hcs]; exact List.mem_cons_self _ _)
    rw [parseInt, if_pos rfl, hcs, List.cons_append]
    rw [if_pos (by simp [hc]), ← List.cons_append, ← hcs]
    rw [parseDigits_append (natData n.natAbs) (natData_digits _) 0 rest, natData_foldl,
      parseDigits_stop _ rest hre]
    have h2 : -((n.natAbs : Nat) : Int) = n := by omega
    simp [h2, abs_of_neg hn]
  · rw [if_neg hn, parseInt_natData _ rest hre]
    have h2 : ((n.natAbs : Nat) : Int) = n := by omega
    simp [h2, abs_of_nonneg (by omega : (0 : Int) ≤ n)]

end Json

namespace Json

/-- Plain characters are emitted verbatim by the escaper. -/
theorem escapeChar_plain (c : Char) (h : plainChar c = true) : escapeChar c = [c] := by
  simp only [plainChar, Bool.and_eq_true, decide_eq_true_eq] at h
  obtain ⟨⟨⟨h1, h2⟩, h3⟩, h4⟩ := h
  rw [escapeChar, if_neg h1, if_neg h2, if_pos (by simp [h3, h4])]

/-- A list of plain characters is unchanged by escaping. -/
theorem flatMap_escape_plain : ∀ l : List Char, (∀ c ∈ l, plainChar c = true) →
    l.flatMap escapeChar = l := by
  intro l
  induction l with
  | nil => intro _; rfl
  | cons c l ih =>
    intro h
    rw [List.flatMap_cons, escapeChar_plain c (h c (List.mem_cons_self _ _)),
      ih (fun d hd => h d (List.mem_cons_of_mem _ hd))]
    rfl

/-- The printed form of a well-formed string is just the quoted body. -/
theorem strData_plain (s : String) (h : wfStr s = true) :
    strData s = '"' :: s.data ++ ['"'] := by
  rw [strData, flatMap_escape_plain s.data (by simpa [wfStr, List.all_eq_true] using h)]

/-- Reading a plain string body back. -/
theorem parseStringBody_plain : ∀ l : List Char, (∀ c ∈ l, plainChar c = true) →
    ∀ rest, parseStringBody (l ++ '"' :: rest) = some (l, rest) := by
  intro l
  induction l with
  | nil => intro _ rest; rfl
  | cons c l ih =>
    intro h rest
    have hc := h c (List.mem_cons_self _ _)
    simp only [plainChar, Bool.and_eq_true, decide_eq_true_eq] at hc
    obtain ⟨⟨⟨h1, h2⟩, _⟩, _⟩ := hc
    rw [List.cons_append, parseStringBody]
    rw [if_neg h1, if_neg h2, ih (fun d hd => h d (List.mem_cons_of_mem _ hd)) rest]
    rfl

/-- `skipWs` drops a leading space. -/
theorem skipWs_space (cs : List Char) : skipWs (' ' :: cs) = skipWs cs := by
  rw [skipWs]
  simp [isWs]

/-- `skipWs` keeps a non-whitespace head. -/
theorem skipWs_no_ws (c : Char) (cs : List Char) (h : isWs c = false) :
    skipWs (c :: cs) = c :: cs := by
  rw [skipWs, if_neg (by simp [h])]

/-- `parseValue` ignores one leading space. -/
theorem parseValue_space (fuel : Nat) (cs : List Char) :
    parseValue fuel (' ' :: cs) = parseValue fuel cs := by
  cases fuel with
  | zero => rfl
  | succ fuel => rw [parseValue, parseValue, skipWs_space]

/-- Head-character classification of printed JSON: the first character is
never whitespace, a closing bracket, a closing brace or a comma. -/
theorem dumpsData_head (j : Json) :
    ∃ c cs, dumpsData j = c :: cs ∧ isWs c = false ∧
      ¬(c = ']') ∧ ¬(c = '\x7d') ∧ ¬(c = ',') := by
  cases j with
  | null => exact ⟨'n', _, rfl, by decide, by decide, by decide, by decide⟩
  | bool b => cases b with
    | true => exact ⟨'t', _, rfl, by decide, by decide, by decide, by decide⟩
    | false => exact ⟨'f', _, rfl, by decide, by decide, by decide, by decide⟩
  | str s => exact ⟨'"', _, rfl, by decide, by decide, by decide, by decide⟩
  | arr xs => cases xs with
    | nil => exact ⟨'[', _, rfl, by decide, by decide, by decide, by decide⟩
    | cons x xs => exact ⟨'[', _, rfl, by decide, by decide, by decide, by decide⟩
  | obj kvs => cases kvs with
    | nil => exact ⟨'\x7b', _, rfl, by decide, by decide, by decide, by decide⟩
    | cons kv kvs => exact ⟨'\x7b', _, rfl, by decide, by decide, by decide, by decide⟩
  | int n =>
    rw [show dumpsData (Json.int n) = intData n from rfl, intData]
    by_cases hn : n < 0
    · exact ⟨'-', _, by rw [if_pos hn], by decide, by decide, by decide, by decide⟩
    · rw [if_neg hn]
      obtain ⟨c, cs, hcs⟩ : ∃ c cs, natData n.natAbs = c :: cs := by
        cases h : natData n.natAbs with
        | nil => exact absurd h (natData_ne_nil _)
        | cons c cs => exact ⟨c, cs, rfl⟩
      have hc : c.isDigit = true := natData_digits _ c (by rw [hcs]; exact List.mem_cons_self _ _)
      refine ⟨c, cs, hcs, isDigit_not_ws c hc, ?_, ?_, ?_⟩ <;>
        · intro h
          rw [h] at hc
          exact absurd hc (by decide)

end Json

namespace Json

/-- An array element's fuel need is bounded by the tail sum. -/
theorem jsize_le_jsizeArr : ∀ (xs : List Json), ∀ x ∈ xs, jsize x ≤ jsizeArr xs := by
  intro xs
  induction xs with
  | nil => intro x hx; simp at hx
  | cons y ys ih =>
    intro x hx
    rw [jsizeArr]
    rcases List.mem_cons.mp hx with rfl | hx
    · omega
    · have := ih x hx
      omega

/-- An object value's fuel need is bounded by the entry sum. -/
theorem jsize_le_jsizeObj : ∀ (kvs : List (String × Json)), ∀ kv ∈ kvs, jsize kv.2 ≤ jsizeObj kvs := by
  intro kvs
  induction kvs with
  | nil => intro kv hkv; simp at hkv
  | cons e es ih =>
    intro kv hkv
    rw [jsizeObj]
    rcases List.mem_cons.mp hkv with rfl | hkv
    · omega
    · have := ih kv hkv
      omega

/-- Printed strings take at least their two quote characters. -/
theorem strData_length (s : String) : 2 ≤ (strData s).length := by
  rw [strData]
  simp

/-- Printed integers are nonempty. -/
theorem intData_length (n : Int) : 1 ≤ (intData n).length := by
  rw [intData]
  by_cases hn : n < 0
  · rw [if_pos hn]; simp
  · rw [if_neg hn]
    cases h : natData n.natAbs with
    | nil => exact absurd h (natData_ne_nil _)
    | cons c cs => simp [h]

/-- The parser fuel bound: the printed form is at least as long as the fuel
`jsize` demands. -/
theorem jsize_le_length : ∀ (N : Nat) (j : Json), jsize j < N →
    jsize j ≤ (dumpsData j).length := by
  intro N
  induction N with
  | zero => intro j h; omega
  | succ N ih =>
    intro j hN
    cases j with
    | null => simp [jsize, dumpsData]
    | bool b => cases b <;> simp [jsize, dumpsData]
    | int n =>
      have := intData_length n
      simp only [jsize]
      rw [show dumpsData (Json.int n) = intData n from rfl]
      omega
    | str s =>
      have := strData_length s
      simp only [jsize]
      rw [show dumpsData (Json.str s) = strData s from rfl]
      omega
    | arr xs =>
      have helem : ∀ x ∈ xs, jsize x ≤ (dumpsData x).length := by
        intro x hx
        have h1 := jsize_le_jsizeArr xs x hx
        have h2 : jsize (Json.arr xs) = 1 + jsizeArr xs := by rw [jsize]
        exact ih x (by omega)
      have htail : ∀ (ys : List Json), (∀ x ∈ ys, jsize x ≤ (dumpsData x).length) →
          jsizeArr ys ≤ (dumpsTail ys).length := by
        intro ys
        induction ys with
        | nil => intro _; simp [jsizeArr, dumpsTail]
        | cons y ys ihy =>
          intro hy
          have hhead := hy y (List.mem_cons_self _ _)
          have hrest := ihy (fun x hx => hy x (List.mem_cons_of_mem _ hx))
          rw [jsizeArr, dumpsTail]
          simp only [List.length_cons, List.length_append]
          omega
      cases xs with
      | nil => simp [jsize, jsizeArr, dumpsData]
      | cons x xs =>
        have hx := helem x (List.mem_cons_self _ _)
        have ht := htail xs (fun y hy => helem y (List.mem_cons_of_mem _ hy))
        rw [jsize, jsizeArr, dumpsData]
        simp only [List.length_cons, List.length_append]
        omega
    | obj kvs =>
      have helem : ∀ kv ∈ kvs, jsize kv.2 ≤ (dumpsData kv.2).length := by
        intro kv hkv
        have h1 := jsize_le_jsizeObj kvs kv hkv
        have h2 : jsize (Json.obj kvs) = 2 + jsizeObj kvs := by rw [jsize]
        exact ih kv.2 (by omega)
      have htail : ∀ (es : List (String × Json)), (∀ kv ∈ es, jsize kv.2 ≤ (dumpsData kv.2).length) →
          jsizeObj es ≤ (dumpsObjTail es).length := by
        intro es
        induction es with
        | nil => intro _; simp [jsizeObj, dumpsObjTail]
        | cons e es ihe =>
          intro he
          have hhead := he e (List.mem_cons_self _ _)
          have hrest := ihe (fun kv hkv => he kv (List.mem_cons_of_mem _ hkv))
          have hs := strData_length e.1
          rw [jsizeObj, dumpsObjTail]
          simp only [List.length_cons, List.length_append]
          omega
      cases kvs with
      | nil => simp [jsize, jsizeObj, dumpsData]
      | cons kv kvs =>
        have hv := helem kv (List.mem_cons_self _ _)
        have ht := htail kvs (fun e he => helem e (List.mem_cons_of_mem _ he))
        have hs := strData_length kv.1
        rw [jsize, jsizeObj, dumpsData]
        simp only [List.length_cons, List.length_append]
        omega

end Json

namespace Json

/-- Facts about the first character of a printed integer. -/
theorem int_head_facts (c : Char) (h : c = '-' ∨ c.isDigit = true) :
    isWs c = false ∧ ¬(c = 'n') ∧ ¬(c = 't') ∧ ¬(c = 'f') ∧ ¬(c = '"') ∧
      ¬(c = '[') ∧ ¬(c = '\x7b') := by
  rcases h with rfl | h
  · exact ⟨by decide, by decide, by decide, by decide, by decide, by decide, by decide⟩
  · refine ⟨isDigit_not_ws c h, ?_, ?_, ?_, ?_, ?_, ?_⟩ <;>
      · intro hc
        rw [hc] at h
        exact absurd h (by decide)

/-- What follows a printed array element never starts with a digit. -/
theorem dumpsTail_head (xs : List Json) (rest : List Char) :
    ∀ d, (dumpsTail xs ++ ']' :: rest).head? = some d → d.isDigit = false := by
  intro d hd
  cases xs with
  | nil =>
    rw [dumpsTail] at hd
    simp at hd
    rw [← hd]
    decide
  | cons x xs =>
    rw [dumpsTail] at hd
    simp at hd
    rw [← hd]
    decide

/-- What follows a printed object entry never starts with a digit. -/
theorem dumpsObjTail_head (kvs : List (String × Json)) (rest : List Char) :
    ∀ d, (dumpsObjTail kvs ++ '\x7d' :: rest).head? = some d → d.isDigit = false := by
  intro d hd
  cases kvs with
  | nil =>
    rw [dumpsObjTail] at hd
    simp at hd
    rw [← hd]
    decide
  | cons kv kvs =>
    rw [dumpsObjTail] at hd
    simp at hd
    rw [← hd]
    decide

/-- `parseArrTail` reads back a printed array tail. -/
theorem parseArrTail_dumps :
    ∀ (xs : List Json)
      (H : ∀ x ∈ xs, ∀ fuel, jsize x ≤ fuel → ∀ rest,
        (∀ d, rest.head? = some d → d.isDigit = false) →
        parseValue fuel (dumpsData x ++ rest) = some (x, rest)),
    ∀ fuel, jsizeArr xs + 1 ≤ fuel → ∀ rest,
      parseArrTail fuel (dumpsTail xs ++ ']' :: rest) = some (xs, rest) := by
  intro xs
  induction xs with
  | nil =>
    intro _ fuel hf rest
    obtain ⟨f, rfl⟩ : ∃ f, fuel = f + 1 := ⟨fuel - 1, by omega⟩
    rw [dumpsTail, List.nil_append, parseArrTail]
    simp [skipWs, isWs]
  | cons x xs ih =>
    intro H fuel hf rest
    rw [jsizeArr] at hf
    obtain ⟨f, rfl⟩ : ∃ f, fuel = f + 1 := ⟨fuel - 1, by omega⟩
    rw [dumpsTail, parseArrTail]
    rw [show (',' :: ' ' :: (dumpsData x ++ dumpsTail xs)) ++ ']' :: rest =
      ',' :: ' ' :: (dumpsData x ++ (dumpsTail xs ++ ']' :: rest)) by simp]
    rw [skipWs_no_ws ',' _ (by decide)]
    have hx := H x (List.mem_cons_self _ _) f (by omega) _ (dumpsTail_head xs rest)
    have ht := ih (fun y hy => H y (List.mem_cons_of_mem _ hy)) f (by omega) rest
    simp [parseValue_space, hx, ht]

/-- `parseEntry` reads back a printed object entry. -/
theorem parseEntry_dumps (k : String) (v : Json)
    (Hv : ∀ fuel, jsize v ≤ fuel → ∀ rest,
      (∀ d, rest.head? = some d → d.isDigit = false) →
      parseValue fuel (dumpsData v ++ rest) = some (v, rest))
    (hk : wfStr k = true) :
    ∀ fuel, jsize v + 2 ≤ fuel → ∀ rest,
      (∀ d, rest.head? = some d → d.isDigit = false) →
      parseEntry fuel (strData k ++ ':' :: ' ' :: (dumpsData v ++ rest)) =
        some ((k, v), rest) := by
  intro fuel hf rest hre
  obtain ⟨f, rfl⟩ : ∃ f, fuel = f + 1 := ⟨fuel - 1, by omega⟩
  rw [strData_plain k hk, parseEntry]
  rw [show ('"' :: k.data ++ ['"']) ++ ':' :: ' ' :: (dumpsData v ++ rest) =
    '"' :: (k.data ++ '"' :: (':' :: ' ' :: (dumpsData v ++ rest))) by simp]
  rw [skipWs_no_ws '"' _ (by decide)]
  have hsb := parseStringBody_plain k.data (by simpa [wfStr, List.all_eq_true] using hk)
    (':' :: ' ' :: (dumpsData v ++ rest))
  have hv := Hv f (by omega) rest hre
  simp [hsb, skipWs_no_ws ':' _ (by decide), parseValue_space, hv]

/-- `parseEntry` ignores one leading space. -/
theorem parseEntry_space (fuel : Nat) (cs : List Char) :
    parseEntry fuel (' ' :: cs) = parseEntry fuel cs := by
  cases fuel with
  | zero => rfl
  | succ fuel => rw [parseEntry, parseEntry, skipWs_space]

/-- `parseObjTail` reads back a printed object tail. -/
theorem parseObjTail_dumps :
    ∀ (kvs : List (String × Json))
      (H : ∀ kv ∈ kvs, ∀ fuel, jsize kv.2 ≤ fuel → ∀ rest,
        (∀ d, rest.head? = some d → d.isDigit = false) →
        parseValue fuel (dumpsData kv.2 ++ rest) = some (kv.2, rest))
      (Hk : ∀ kv ∈ kvs, wfStr kv.1 = true),
    ∀ fuel, jsizeObj kvs + 1 ≤ fuel → ∀ rest,
      parseObjTail fuel (dumpsObjTail kvs ++ '\x7d' :: rest) = some (kvs, rest) := by
  intro kvs
  induction kvs with
  | nil =>
    intro _ _ fuel hf rest
    obtain ⟨f, rfl⟩ : ∃ f, fuel = f + 1 := ⟨fuel - 1, by omega⟩
    rw [dumpsObjTail, List.nil_append, parseObjTail]
    simp [skipWs, isWs]
  | cons kv kvs ih =>
    intro H Hk fuel hf rest
    rw [jsizeObj] at hf
    obtain ⟨f, rfl⟩ : ∃ f, fuel = f + 1 := ⟨fuel - 1, by omega⟩
    rw [dumpsObjTail, parseObjTail]
    rw [show (',' :: ' ' :: (strData kv.1 ++ ':' :: ' ' :: dumpsData kv.2 ++ dumpsObjTail kvs)) ++
        '\x7d' :: rest =
      ',' :: ' ' :: (strData kv.1 ++ ':' :: ' ' ::
        (dumpsData kv.2 ++ (dumpsObjTail kvs ++ '\x7d' :: rest))) by simp]
    rw [skipWs_no_ws ',' _ (by decide)]
    have he := parseEntry_dumps kv.1 kv.2 (H kv (List.mem_cons_self _ _))
      (Hk kv (List.mem_cons_self _ _)) f (by omega) _ (dumpsObjTail_head kvs rest)
    have ht := ih (fun e he => H e (List.mem_cons_of_mem _ he))
      (fun e he => Hk e (List.mem_cons_of_mem _ he)) f (by omega) rest
    simp [parseEntry_space, he, ht]

end Json

namespace Json

/-- Elements of a well-formed array are well-formed. -/
theorem wfArr_mem : ∀ (xs : List Json), wfArr xs = true → ∀ x ∈ xs, wfJson x = true := by
  intro xs
  induction xs with
  | nil => intro _ x hx; simp at hx
  | cons y ys ih =>
    intro h x hx
    rw [wfArr, Bool.and_eq_true] at h
    rcases List.mem_cons.mp hx with rfl | hx'
    · exact h.1
    · exact ih h.2 x hx'

/-- Entries of a well-formed object have well-formed keys and values. -/
theorem wfObj_mem : ∀ (kvs : List (String × Json)), wfObj kvs = true →
    ∀ kv ∈ kvs, wfStr kv.1 = true ∧ wfJson kv.2 = true := by
  intro kvs
  induction kvs with
  | nil => intro _ kv hkv; simp at hkv
  | cons e es ih =>
    intro h kv hkv
    rw [show wfObj (e :: es) = (wfStr e.1 && wfJson e.2 && wfObj es) by rw [wfObj.eq_def],
      Bool.and_eq_true, Bool.and_eq_true] at h
    rcases List.mem_cons.mp hkv with rfl | hkv'
    · exact h.1
    · exact ih h.2 kv hkv'

/-- The parser inverts the printer on well-formed JSON: reading the printed
form of `j` followed by any remainder that does not begin with a digit
yields exactly `j` and that remainder, for any fuel of at least `jsize j`. -/
theorem parseValue_dumps : ∀ (N : Nat) (j : Json), jsize j < N → wfJson j = true →
    ∀ fuel, jsize j ≤ fuel → ∀ rest, (∀ d, rest.head? = some d → d.isDigit = false) →
    parseValue fuel (dumpsData j ++ rest) = some (j, rest) := by
  intro N
  induction N with
  | zero => intro j h; omega
  | succ N ih =>
    intro j hN hwf fuel hfuel rest hre
    obtain ⟨f, rfl⟩ : ∃ f, fuel = f + 1 := by
      cases j <;> simp [jsize] at hfuel <;> exact ⟨fuel - 1, by omega⟩
    cases j with
    | null =>
      rw [show dumpsData Json.null ++ rest = 'n' :: 'u' :: 'l' :: 'l' :: rest from rfl,
        parseValue]
      simp [skipWs, isWs]
    | bool b =>
      cases b with
      | true =>
        rw [show dumpsData (Json.bool true) ++ rest = 't' :: 'r' :: 'u' :: 'e' :: rest from rfl,
          parseValue]
        simp [skipWs, isWs]
      | false =>
        rw [show dumpsData (Json.bool false) ++ rest =
          'f' :: 'a' :: 'l' :: 's' :: 'e' :: rest from rfl, parseValue]
        simp [skipWs, isWs]
    | int n =>
      rw [show dumpsData (Json.int n) = intData n from rfl]
      obtain ⟨c, cs, hcs⟩ : ∃ c cs, intData n = c :: cs := by
        cases h : intData n with
        | nil =>
          have := intData_length n
          rw [h] at this
          simp at this
        | cons c cs => exact ⟨c, cs, rfl⟩
      have hcor : c = '-' ∨ c.isDigit = true := by
        rw [intData] at hcs
        by_cases hn : n < 0
        · rw [if_pos hn] at hcs
          injection hcs with hc1 hc2
          exact Or.inl hc1.symm
        · right
          rw [if_neg hn] at hcs
          exact natData_digits _ c (by rw [hcs]; exact List.mem_cons_self _ _)
      obtain ⟨hws, h1, h2, h3, h4, h5, h6⟩ := int_head_facts c hcor
      rw [hcs, List.cons_append, parseValue, skipWs_no_ws c _ hws]
      dsimp only
      rw [if_neg h1, if_neg h2, if_neg h3, if_neg h4, if_neg h5, if_neg h6]
      rw [← List.cons_append, ← hcs, parseInt_intData n rest hre]
    | str s =>
      have hwfs : wfStr s = true := by simpa [wfJson] using hwf
      rw [show dumpsData (Json.str s) = strData s from rfl, strData_plain s hwfs]
      rw [show ('"' :: s.data ++ ['"']) ++ rest = '"' :: (s.data ++ '"' :: rest) by simp]
      rw [parseValue, skipWs_no_ws '"' _ (by decide)]
      have hsb := parseStringBody_plain s.data (by simpa [wfStr, List.all_eq_true] using hwfs) rest
      simp [hsb]
    | arr xs =>
      cases xs with
      | nil =>
        rw [show dumpsData (Json.arr []) ++ rest = '[' :: ']' :: rest from rfl, parseValue]
        simp [skipWs, isWs]
      | cons x xs =>
        have hsz : jsize (Json.arr (x :: xs)) = 1 + (1 + jsize x + jsizeArr xs) := by
          rw [jsize, jsizeArr]
        have hwx : wfJson x = true ∧ wfArr xs = true := by
          have h0 : wfJson (Json.arr (x :: xs)) = (wfJson x && wfArr xs) := by
            rw [wfJson, wfArr]
          rw [h0, Bool.and_eq_true] at hwf
          exact hwf
        have helem : ∀ y ∈ x :: xs, wfJson y = true → ∀ fuel, jsize y ≤ fuel → ∀ r,
            (∀ d, r.head? = some d → d.isDigit = false) →
            parseValue fuel (dumpsData y ++ r) = some (y, r) := by
          intro y hy hwy
          have hyn : jsize y < N := by
            rcases List.mem_cons.mp hy with rfl | hy'
            · omega
            · have := jsize_le_jsizeArr xs y hy'
              omega
          exact ih y hyn hwy
        have hwxs : ∀ y ∈ xs, wfJson y = true := wfArr_mem xs hwx.2
        rw [show dumpsData (Json.arr (x :: xs)) ++ rest =
          '[' :: (dumpsData x ++ (dumpsTail xs ++ ']' :: rest)) by
            rw [dumpsData]; simp]
        rw [parseValue, skipWs_no_ws '[' _ (by decide)]
        dsimp only
        rw [if_neg (by decide : ¬('[' = 'n')), if_neg (by decide : ¬('[' = 't')),
          if_neg (by decide : ¬('[' = 'f')), if_neg (by decide : ¬('[' = '"')),
          if_pos (rfl : '[' = '[')]
        obtain ⟨c, cs, hcx, hcw, hc1, hc2, hc3⟩ := dumpsData_head x
        rw [hcx, List.cons_append, skipWs_no_ws c _ hcw]
        have hx := helem x (List.mem_cons_self _ _) hwx.1 f (by omega)
          (dumpsTail xs ++ ']' :: rest) (dumpsTail_head xs rest)
        rw [hcx, List.cons_append] at hx
        have ht := parseArrTail_dumps xs
          (fun y hy => helem y (List.mem_cons_of_mem _ hy) (hwxs y hy))
          f (by omega) rest
        split
        · rename_i r heq
          injection heq with hh1 hh2
          exact absurd hh1 hc1
        · simp [hx, ht]
    | obj kvs =>
      cases kvs with
      | nil =>
        rw [show dumpsData (Json.obj []) ++ rest = '\x7b' :: '\x7d' :: rest from rfl, parseValue]
        simp [skipWs, isWs]
      | cons kv kvs =>
        have hsz : jsize (Json.obj (kv :: kvs)) = 2 + (2 + jsize kv.2 + jsizeObj kvs) := by
          rw [jsize, jsizeObj]
        have hwx : (wfStr kv.1 && wfJson kv.2) = true ∧ wfObj kvs = true := by
          have h0 : wfJson (Json.obj (kv :: kvs)) = ((wfStr kv.1 && wfJson kv.2) && wfObj kvs) := by
            rw [wfJson]
            rw [show wfObj (kv :: kvs) = (wfStr kv.1 && wfJson kv.2 && wfObj kvs) by
              rw [wfObj.eq_def]]
          rw [h0, Bool.and_eq_true] at hwf
          exact hwf
        have hk1 : wfStr kv.1 = true := (Bool.and_eq_true .. ▸ hwx.1).1
        have hv1 : wfJson kv.2 = true := (Bool.and_eq_true .. ▸ hwx.1).2
        have helem : ∀ e ∈ kv :: kvs, wfJson e.2 = true → ∀ fuel, jsize e.2 ≤ fuel → ∀ r,
            (∀ d, r.head? = some d → d.isDigit = false) →
            parseValue fuel (dumpsData e.2 ++ r) = some (e.2, r) := by
          intro e he hwe
          have hen : jsize e.2 < N := by
            rcases List.mem_cons.mp he with rfl | he'
            · omega
            · have := jsize_le_jsizeObj kvs e he'
              omega
          exact ih e.2 hen hwe
        have hwkvs : ∀ e ∈ kvs, wfStr e.1 = true ∧ wfJson e.2 = true := wfObj_mem kvs hwx.2
        rw [show dumpsData (Json.obj (kv :: kvs)) ++ rest =
          '\x7b' :: (strData kv.1 ++ ':' :: ' ' ::
            (dumpsData kv.2 ++ (dumpsObjTail kvs ++ '\x7d' :: rest))) by
            rw [dumpsData]; simp]
        rw [parseValue, skipWs_no_ws '\x7b' _ (by decide)]
        dsimp only
        rw [if_neg (by decide : ¬('\x7b' = 'n')), if_neg (by decide : ¬('\x7b' = 't')),
          if_neg (by decide : ¬('\x7b' = 'f')), if_neg (by decide : ¬('\x7b' = '"')),
          if_neg (by decide : ¬('\x7b' = '[')), if_pos (rfl : '\x7b' = '\x7b')]
        have hshape : strData kv.1 ++ ':' :: ' ' ::
            (dumpsData kv.2 ++ (dumpsObjTail kvs ++ '\x7d' :: rest)) =
            '"' :: (kv.1.data ++ '"' :: ':' :: ' ' ::
              (dumpsData kv.2 ++ (dumpsObjTail kvs ++ '\x7d' :: rest))) := by
          rw [strData_plain kv.1 hk1]
          simp
        rw [hshape, skipWs_no_ws '"' _ (by decide)]
        have hent := parseEntry_dumps kv.1 kv.2
          (fun fuel hf r hr => helem kv (List.mem_cons_self _ _) hv1 fuel hf r hr)
          hk1 f (by omega) _ (dumpsObjTail_head kvs rest)
        rw [hshape] at hent
        have ht := parseObjTail_dumps kvs
          (fun e he => helem e (List.mem_cons_of_mem _ he) (hwkvs e he).2)
          (fun e he => (hwkvs e he).1)
          f (by omega) rest
        split
        · rename_i r heq
          injection heq with hh1 hh2
          exact absurd hh1 (by decide)
        · simp [hent, ht]

end Json

namespace Json

/-- `json.loads` inverts `json.dumps` on well-formed values. -/
theorem loads_dumps (j : Json) (h : wfJson j = true) : loads (dumps j) = some j := by
  rw [loads, show (dumps j).data = dumpsData j from rfl]
  have hlen : jsize j ≤ (dumpsData j).length + 1 := by
    have := jsize_le_length (jsize j + 1) j (by omega)
    omega
  have hp := parseValue_dumps (jsize j + 1) j (by omega) h ((dumpsData j).length + 1) hlen
    [] (by intro d hd; simp at hd)
  rw [List.append_nil] at hp
  rw [hp]
  rfl

/-- The printed form of a nonempty object contains a colon — so
`SomeEnum.deserialize` always routes such output to the object branch. -/
theorem colon_in_dumps_obj (kv : String × Json) (kvs : List (String × Json)) :
    pyIn ':' (dumps (.obj (kv :: kvs))) = true := by
  rw [pyIn, show (dumps (Json.obj (kv :: kvs))).data = dumpsData (.obj (kv :: kvs)) from rfl]
  rw [dumpsData]
  have : ':' ∈ '\x7b' :: (strData kv.1 ++ ':' :: ' ' :: dumpsData kv.2 ++
      dumpsObjTail kvs ++ ['\x7d']) := by
    simp
  exact List.elem_eq_true_of_mem this

end Json

/-- `decodeRaw` keeps any non-null value. -/
theorem decodeRaw_not_null (j : Json) (h : j.isNull = false) : decodeRaw j = some j := by
  cases j <;> simp_all [Json.isNull, decodeRaw]

/-- Decode step for a `Field2` entry. -/
theorem SomeEnum.walk_step2 (f1 : Option VIVal) (f2 : Option (Int × Int)) (f3 : Option Json)
    (f4 : Option (List SomeEnum)) (f5 : Option Json) (a b : Int) (tail : List (String × Json)) :
    SomeEnum.walk f1 f2 f3 f4 f5 (("Field2", .arr [.int a, .int b]) :: tail) =
      SomeEnum.walk f1 (some (a, b)) f3 f4 f5 tail := by
  simp [SomeEnum.walk, decodeField2]

/-- Decode step for a `Field3` entry. -/
theorem SomeEnum.walk_step3 (f1 : Option VIVal) (f2 : Option (Int × Int)) (f3 : Option Json)
    (f4 : Option (List SomeEnum)) (f5 : Option Json) (j : Json) (hj : j.isNull = false)
    (tail : List (String × Json)) :
    SomeEnum.walk f1 f2 f3 f4 f5 (("Field3", j) :: tail) =
      SomeEnum.walk f1 f2 (some j) f4 f5 tail := by
  simp [SomeEnum.walk, decodeRaw_not_null j hj]

/-- Decode step for a `Field4` entry. -/
theorem SomeEnum.walk_step4 (f1 : Option VIVal) (f2 : Option (Int × Int)) (f3 : Option Json)
    (f4 : Option (List SomeEnum)) (f5 : Option Json) (ds : List Json) (xs : List SomeEnum)
    (hfl : SomeEnum.fromList ds = .ok xs) (tail : List (String × Json)) :
    SomeEnum.walk f1 f2 f3 f4 f5 (("Field4", .arr ds) :: tail) =
      SomeEnum.walk f1 f2 f3 (some xs) f5 tail := by
  simp [SomeEnum.walk, SomeEnum.decodeField4, hfl]

/-- Decode step for a `Field5` entry. -/
theorem SomeEnum.walk_step5 (f1 : Option VIVal) (f2 : Option (Int × Int)) (f3 : Option Json)
    (f4 : Option (List SomeEnum)) (f5 : Option Json) (j : Json) (hj : j.isNull = false)
    (tail : List (String × Json)) :
    SomeEnum.walk f1 f2 f3 f4 f5 (("Field5", j) :: tail) =
      SomeEnum.walk f1 f2 f3 f4 (some j) tail := by
  simp [SomeEnum.walk, decodeRaw_not_null j hj]

/-- Unpacking a raw-slot well-formedness certificate. -/
theorem wfRawOpt_cases (o : Option Json) (h : wfRawOpt o = true) :
    o = none ∨ ∃ j, o = some j ∧ Json.wfJson j = true ∧ j.isNull = false := by
  cases o with
  | none => exact Or.inl rfl
  | some j =>
    right
    rw [wfRawOpt, Bool.and_eq_true, Bool.not_eq_true'] at h
    exact ⟨j, rfl, h.1, h.2⟩

/-- Unpacking the enum well-formedness certificate. -/
theorem SomeEnum.wfEnum_parts (f1 : Option VIVal) (f2 : Option (Int × Int)) (f3 : Option Json)
    (f4 : Option (List SomeEnum)) (f5 : Option Json)
    (h : SomeEnum.wfEnum (.mk f1 f2 f3 f4 f5) = true) :
    f1 = none ∧ wfRawOpt f3 = true ∧ wfRawOpt f5 = true ∧
      (∀ xs, f4 = some xs → SomeEnum.wfEnumList xs = true) := by
  cases f1 with
  | some v =>
    rw [show SomeEnum.wfEnum (.mk (some v) f2 f3 f4 f5) = false by rw [SomeEnum.wfEnum.eq_def]] at h
    exact absurd h (by simp)
  | none =>
    cases f4 with
    | none =>
      rw [show SomeEnum.wfEnum (.mk none f2 f3 none f5) = (wfRawOpt f3 && wfRawOpt f5) by
        rw [SomeEnum.wfEnum.eq_def], Bool.and_eq_true] at h
      exact ⟨rfl, h.1, h.2, fun xs hxs => by cases hxs⟩
    | some xs =>
      rw [show SomeEnum.wfEnum (.mk none f2 f3 (some xs) f5) =
        (wfRawOpt f3 && wfRawOpt f5 && SomeEnum.wfEnumList xs) by
        rw [SomeEnum.wfEnum.eq_def], Bool.and_eq_true, Bool.and_eq_true] at h
      exact ⟨rfl, h.1.1, h.1.2, fun ys hys => by cases hys; exact h.2⟩

/-- Member bound for the element-size sum. -/
theorem SomeEnum.esize_le_esizeList : ∀ (xs : List SomeEnum), ∀ y ∈ xs,
    SomeEnum.esize y ≤ SomeEnum.esizeList xs := by
  intro xs
  induction xs with
  | nil => intro y hy; simp at hy
  | cons z zs ih =>
    intro y hy
    rw [SomeEnum.esizeList]
    rcases List.mem_cons.mp hy with rfl | hy'
    · omega
    · have := ih y hy'
      omega

/-- Per-element well-formedness from a list certificate. -/
theorem SomeEnum.wfEnumList_mem : ∀ (xs : List SomeEnum), SomeEnum.wfEnumList xs = true →
    ∀ y ∈ xs, SomeEnum.wfEnum y = true := by
  intro xs
  induction xs with
  | nil => intro _ y hy; simp at hy
  | cons z zs ih =>
    intro h y hy
    rw [SomeEnum.wfEnumList, Bool.and_eq_true] at h
    rcases List.mem_cons.mp hy with rfl | hy'
    · exact h.1
    · exact ih h.2 y hy'

/-- List version of the dict round trip, given the element property. -/
theorem SomeEnum.toDictList_roundtrip (xs : List SomeEnum)
    (H : ∀ y ∈ xs, SomeEnum.wfEnum y = true →
      ∃ d, SomeEnum.toDict y = some d ∧ Json.wfJson d = true ∧ SomeEnum.from_dict d = .ok y)
    (hwf : SomeEnum.wfEnumList xs = true) :
    ∃ ds, SomeEnum.toDictList xs = some ds ∧ Json.wfArr ds = true ∧
      SomeEnum.fromList ds = .ok xs := by
  induction xs with
  | nil => exact ⟨[], rfl, rfl, rfl⟩
  | cons y ys ih =>
    rw [SomeEnum.wfEnumList, Bool.and_eq_true] at hwf
    obtain ⟨d, hd, hwd, hfd⟩ := H y (List.mem_cons_self _ _) hwf.1
    obtain ⟨ds, hds, hwds, hfls⟩ := ih (fun z hz => H z (List.mem_cons_of_mem _ hz)) hwf.2
    refine ⟨d :: ds, ?_, ?_, ?_⟩
    · simp [SomeEnum.toDictList, hd, hds]
    · rw [Json.wfArr, Bool.and_eq_true]
      exact ⟨hwd, hwds⟩
    · simp [SomeEnum.fromList, hfd, hfls]

/-- Object well-formedness splits over append. -/
theorem Json.wfObj_append : ∀ (l1 l2 : List (String × Json)),
    Json.wfObj (l1 ++ l2) = (Json.wfObj l1 && Json.wfObj l2) := by
  intro l1 l2
  induction l1 with
  | nil => simp [Json.wfObj]
  | cons e es ih =>
    rw [List.cons_append,
      show ∀ t, Json.wfObj (e :: t) = (Json.wfStr e.1 && Json.wfJson e.2 && Json.wfObj t) by
        intro t; rw [Json.wfObj.eq_def],
      show Json.wfObj (e :: es) = (Json.wfStr e.1 && Json.wfJson e.2 && Json.wfObj es) by
        rw [Json.wfObj.eq_def],
      ih]
    simp [Bool.and_assoc]

/-- Walk composition: a possible `Field2` entry sets the second slot. -/
theorem SomeEnum.walk_optEntry2 (f1 : Option VIVal) (f3v : Option Json)
    (f4v : Option (List SomeEnum)) (f5v : Option Json) (f2o : Option (Int × Int))
    (tail : List (String × Json)) :
    SomeEnum.walk f1 none f3v f4v f5v
        (optEntry "Field2" (f2o.map fun p => Json.arr [Json.int p.1, Json.int p.2]) ++ tail) =
      SomeEnum.walk f1 f2o f3v f4v f5v tail := by
  cases f2o with
  | none => rfl
  | some p =>
    rw [show optEntry "Field2" ((some p).map fun p => Json.arr [Json.int p.1, Json.int p.2]) =
      [("Field2", Json.arr [Json.int p.1, Json.int p.2])] from rfl, List.cons_append,
      List.nil_append]
    exact SomeEnum.walk_step2 f1 none f3v f4v f5v p.1 p.2 tail

/-- Walk composition: a possible raw `Field3` entry sets the third slot. -/
theorem SomeEnum.walk_optEntry3 (f1 : Option VIVal) (f2v : Option (Int × Int))
    (f4v : Option (List SomeEnum)) (f5v : Option Json) (f3o : Option Json)
    (h3 : wfRawOpt f3o = true) (tail : List (String × Json)) :
    SomeEnum.walk f1 f2v none f4v f5v (optEntry "Field3" f3o ++ tail) =
      SomeEnum.walk f1 f2v f3o f4v f5v tail := by
  rcases wfRawOpt_cases f3o h3 with rfl | ⟨j, rfl, _, hn⟩
  · rw [show optEntry "Field3" none = [] from rfl, List.nil_append]
  · rw [show optEntry "Field3" (some j) = [("Field3", j)] from rfl, List.cons_append,
      List.nil_append]
    exact SomeEnum.walk_step3 f1 f2v none f4v f5v j hn tail

/-- Walk composition: a possible raw `Field5` entry sets the fifth slot. -/
theorem SomeEnum.walk_optEntry5 (f1 : Option VIVal) (f2v : Option (Int × Int))
    (f3v : Option Json) (f4v : Option (List SomeEnum)) (f5o : Option Json)
    (h5 : wfRawOpt f5o = true) (tail : List (String × Json)) :
    SomeEnum.walk f1 f2v f3v f4v none (optEntry "Field5" f5o ++ tail) =
      SomeEnum.walk f1 f2v f3v f4v f5o tail := by
  rcases wfRawOpt_cases f5o h5 with rfl | ⟨j, rfl, _, hn⟩
  · rw [show optEntry "Field5" none = [] from rfl, List.nil_append]
  · rw [show optEntry "Field5" (some j) = [("Field5", j)] from rfl, List.cons_append,
      List.nil_append]
    exact SomeEnum.walk_step5 f1 f2v f3v f4v none j hn tail

/-- The entry of an optional `Field2` is a well-formed object fragment. -/
theorem Json.wfObj_optEntry2 (f2o : Option (Int × Int)) :
    Json.wfObj (optEntry "Field2" (f2o.map fun p => Json.arr [Json.int p.1, Json.int p.2])) =
      true := by
  cases f2o with
  | none => rfl
  | some p => rfl

/-- The entry of an optional raw slot is a well-formed object fragment. -/
theorem Json.wfObj_optEntryRaw (k : String) (hk : Json.wfStr k = true) (o : Option Json)
    (ho : wfRawOpt o = true) : Json.wfObj (optEntry k o) = true := by
  rcases wfRawOpt_cases o ho with rfl | ⟨j, rfl, hw, _⟩
  · rfl
  · rw [show optEntry k (some j) = [(k, j)] from rfl,
      show Json.wfObj [(k, j)] = (Json.wfStr k && Json.wfJson j && Json.wfObj []) by
        rw [Json.wfObj.eq_def]]
    simp [hk, hw, Json.wfObj]

/-- The dict rendering of a well-formed `SomeEnum` value decodes back to
exactly that value, and is itself well-formed JSON. -/
theorem SomeEnum.dict_roundtrip : ∀ (N : Nat) (x : SomeEnum), SomeEnum.esize x < N →
    SomeEnum.wfEnum x = true →
    ∃ d, SomeEnum.toDict x = some d ∧ Json.wfJson d = true ∧
      SomeEnum.from_dict d = .ok x := by
  intro N
  induction N with
  | zero => intro x h; omega
  | succ N ih =>
    intro x hN hwf
    obtain ⟨f1, f2, f3, f4, f5⟩ := x
    obtain ⟨hf1, h3, h5, h4⟩ := SomeEnum.wfEnum_parts f1 f2 f3 f4 f5 hwf
    subst hf1
    cases f4 with
    | none =>
      refine ⟨.obj (optEntry "Field2" (f2.map fun p => Json.arr [Json.int p.1, Json.int p.2]) ++
        (optEntry "Field3" f3 ++ ([] ++ optEntry "Field5" f5))), ?_, ?_, ?_⟩
      · simp [SomeEnum.toDict]
      · rw [show Json.wfJson (Json.obj (optEntry "Field2"
            (f2.map fun p => Json.arr [Json.int p.1, Json.int p.2]) ++
            (optEntry "Field3" f3 ++ ([] ++ optEntry "Field5" f5)))) =
          Json.wfObj (optEntry "Field2" (f2.map fun p => Json.arr [Json.int p.1, Json.int p.2]) ++
            (optEntry "Field3" f3 ++ ([] ++ optEntry "Field5" f5))) by rw [Json.wfJson]]
        rw [Json.wfObj_append, Json.wfObj_append, List.nil_append]
        simp [Json.wfObj_optEntry2, Json.wfObj_optEntryRaw "Field3" (by decide) f3 h3,
          Json.wfObj_optEntryRaw "Field5" (by decide) f5 h5]
      · rw [SomeEnum.from_dict]
        rw [SomeEnum.walk_optEntry2, List.nil_append, SomeEnum.walk_optEntry3 _ _ _ _ _ h3,
          show optEntry "Field5" f5 = optEntry "Field5" f5 ++ [] by simp,
          SomeEnum.walk_optEntry5 _ _ _ _ _ h5]
        rfl
    | some xs =>
      have hesz : SomeEnum.esize (.mk none f2 f3 (some xs) f5) = 1 + SomeEnum.esizeList xs := by
        rw [SomeEnum.esize]
      obtain ⟨ds, hds, hwds, hfl⟩ := SomeEnum.toDictList_roundtrip xs
        (fun y hy hwy => ih y (by
          have := SomeEnum.esize_le_esizeList xs y hy
          omega) hwy)
        (h4 xs rfl)
      refine ⟨.obj (optEntry "Field2" (f2.map fun p => Json.arr [Json.int p.1, Json.int p.2]) ++
        (optEntry "Field3" f3 ++ ([("Field4", Json.arr ds)] ++ optEntry "Field5" f5))), ?_, ?_, ?_⟩
      · simp [SomeEnum.toDict, hds]
      · rw [show Json.wfJson (Json.obj (optEntry "Field2"
            (f2.map fun p => Json.arr [Json.int p.1, Json.int p.2]) ++
            (optEntry "Field3" f3 ++ ([("Field4", Json.arr ds)] ++ optEntry "Field5" f5)))) =
          Json.wfObj (optEntry "Field2" (f2.map fun p => Json.arr [Json.int p.1, Json.int p.2]) ++
            (optEntry "Field3" f3 ++ ([("Field4", Json.arr ds)] ++ optEntry "Field5" f5))) by
          rw [Json.wfJson]]
        rw [Json.wfObj_append, Json.wfObj_append, Json.wfObj_append]
        rw [show Json.wfObj [("Field4", Json.arr ds)] =
          (Json.wfStr "Field4" && Json.wfJson (Json.arr ds) && Json.wfObj []) by
          rw [Json.wfObj.eq_def]]
        rw [show Json.wfJson (Json.arr ds) = Json.wfArr ds by rw [Json.wfJson]]
        simp [Json.wfObj_optEntry2, Json.wfObj_optEntryRaw "Field3" (by decide) f3 h3,
          Json.wfObj_optEntryRaw "Field5" (by decide) f5 h5, hwds, Json.wfObj,
          show Json.wfStr "Field4" = true from by decide]
      · rw [SomeEnum.from_dict]
        rw [SomeEnum.walk_optEntry2, SomeEnum.walk_optEntry3 _ _ _ _ _ h3, List.cons_append,
          List.nil_append, SomeEnum.walk_step4 _ _ _ _ _ ds xs hfl,
          show optEntry "Field5" f5 = optEntry "Field5" f5 ++ [] by simp,
          SomeEnum.walk_optEntry5 _ _ _ _ _ h5]
        rfl

/-- Parsing the `'{ "Tuple": ' ++ dumps v ++ ' }'` wrapper that
`TupleStructure.deserialize` builds around its raw input. -/
theorem Json.loads_tuple_wrap (v : Json) (hv : Json.wfJson v = true) :
    Json.loads ("\x7b \"Tuple\": " ++ Json.dumps v ++ " \x7d") =
      some (.obj [("Tuple", v)]) := by
  rw [Json.loads]
  have hdata : ("\x7b \"Tuple\": " ++ Json.dumps v ++ " \x7d").data =
      '\x7b' :: ' ' :: '"' :: 'T' :: 'u' :: 'p' :: 'l' :: 'e' :: '"' :: ':' :: ' ' ::
        (Json.dumpsData v ++ [' ', '\x7d']) := by
    rw [String.data_append, String.data_append,
      show ("\x7b \"Tuple\": " : String).data =
        ['\x7b', ' ', '"', 'T', 'u', 'p', 'l', 'e', '"', ':', ' '] from rfl,
      show (" \x7d" : String).data = [' ', '\x7d'] from rfl,
      show (Json.dumps v).data = Json.dumpsData v from rfl]
    simp
  rw [hdata]
  obtain ⟨f, hf, hge⟩ : ∃ f, ('\x7b' :: ' ' :: '"' :: 'T' :: 'u' :: 'p' :: 'l' :: 'e' :: '"' ::
      ':' :: ' ' :: (Json.dumpsData v ++ [' ', '\x7d'])).length + 1 = f + 1 ∧
      Json.jsize v + 2 ≤ f := by
    refine ⟨('\x7b' :: ' ' :: '"' :: 'T' :: 'u' :: 'p' :: 'l' :: 'e' :: '"' ::
      ':' :: ' ' :: (Json.dumpsData v ++ [' ', '\x7d'])).length, rfl, ?_⟩
    have := Json.jsize_le_length (Json.jsize v + 1) v (by omega)
    simp only [List.length_cons, List.length_append]
    omega
  have hent := Json.parseEntry_dumps "Tuple" v
    (fun fuel hfu r hr => Json.parseValue_dumps (Json.jsize v + 1) v (by omega) hv fuel hfu r hr)
    (by decide) f (by omega) [' ', '\x7d'] (by intro d hd; simp at hd; rw [← hd]; decide)
  rw [Json.strData_plain "Tuple" (by decide)] at hent
  rw [show ('"' :: ("Tuple" : String).data ++ ['"']) ++ ':' :: ' ' ::
      (Json.dumpsData v ++ [' ', '\x7d']) =
    '"' :: 'T' :: 'u' :: 'p' :: 'l' :: 'e' :: '"' :: ':' :: ' ' ::
      (Json.dumpsData v ++ [' ', '\x7d']) by simp] at hent
  have hot : Json.parseObjTail f [' ', '\x7d'] = some ([], []) := by
    obtain ⟨g, rfl⟩ : ∃ g, f = g + 1 := ⟨f - 1, by omega⟩
    rw [Json.parseObjTail, Json.skipWs_space, Json.skipWs_no_ws '\x7d' _ (by decide)]
    rfl
  have hpv : Json.parseValue (f + 1) ('\x7b' :: ' ' :: '"' :: 'T' :: 'u' :: 'p' :: 'l' :: 'e' ::
      '"' :: ':' :: ' ' :: (Json.dumpsData v ++ [' ', '\x7d'])) =
      some (.obj [("Tuple", v)], []) := by
    rw [Json.parseValue, Json.skipWs_no_ws '\x7b' _ (by decide)]
    dsimp only
    rw [if_neg (by decide : ¬('\x7b' = 'n')), if_neg (by decide : ¬('\x7b' = 't')),
      if_neg (by decide : ¬('\x7b' = 'f')), if_neg (by decide : ¬('\x7b' = '"')),
      if_neg (by decide : ¬('\x7b' = '[')), if_pos (rfl : '\x7b' = '\x7b')]
    rw [Json.skipWs_space, Json.skipWs_no_ws '"' _ (by decide)]
    split
    · rename_i r heq
      injection heq with hh1 hh2
      exact absurd hh1 (by decide)
    · simp [hent, hot]
  rw [hf, hpv]
  rfl

/-- Deserializing the dump of a nonempty object always goes through the
object branch (the dump contains a colon) and reduces to `from_dict` on the
parsed-back object. -/
theorem SomeEnum.deserialize_dumps_obj (kv : String × Json) (kvs : List (String × Json))
    (hwf : Json.wfJson (.obj (kv :: kvs)) = true) :
    SomeEnum.deserialize (Json.dumps (.obj (kv :: kvs))) =
      SomeEnum.from_dict (.obj (kv :: kvs)) := by
  rw [SomeEnum.deserialize, Json.colon_in_dumps_obj kv kvs]
  rw [if_neg (by decide)]
  rw [SomeEnum.from_json, Json.loads_dumps _ hwf]

/-- C1 (corrected): the round trip `deserialize ∘ serialize` is the
structural identity on every schema-constructible value: the four non-Unit
`SomeEnum` variants (with well-formed payloads), the Unit variant up to the
identity of the freshly allocated `VariantIndicator`, `UnitStructure`,
`TupleStructure` and `NamedStructure`; and the self-referential `Field5`
vector decodes (payload retained as raw JSON) and re-encodes to the
identical text.  Python `==` nevertheless fails on the Unit variant, whose
marker object is compared by identity — see the counterexample. -/
theorem claim_C1_amended :
    (∀ x : SomeEnum, ConstructibleEnum x →
      ∃ s, SomeEnum.serialize x = .ok s ∧ SomeEnum.deserialize s = .ok x) ∧
    (∀ i : Nat, SomeEnum.serialize (.mk (some (.inst i)) none none none none) =
        .ok "\"Field1\"" ∧
      SomeEnum.deserialize "\"Field1\"" =
        .ok (.mk (some (.inst freshVariantIndicatorId)) none none none none)) ∧
    (∀ u : UnitStructure, UnitStructure.deserialize (UnitStructure.serialize u) =
      .ok (some u)) ∧
    (∀ (a : Int) (s : String) (b : Int), Json.wfStr s = true →
      TupleStructure.deserialize (TupleStructure.serialize ⟨(a, s, b)⟩) = .ok ⟨(a, s, b)⟩) ∧
    (∀ (a : String) (b : Int) (c : List SomeEnum), Json.wfStr a = true →
      SomeEnum.wfEnumList c = true →
      ∃ s, NamedStructure.serialize ⟨a, b, c⟩ = .ok s ∧
        NamedStructure.deserialize s = .ok ⟨a, b, c⟩) ∧
    SomeEnum.deserialize
        "\x7b\"Field5\": \x7b\"a\": \x7b\"Field5\": \x7b\"a\": \"Field1\"\x7d\x7d\x7d\x7d" =
      .ok (.mk none none none none
        (some (.obj [("a", .obj [("Field5", .obj [("a", .str "Field1")])])]))) ∧
    SomeEnum.serialize (.mk none none none none
        (some (.obj [("a", .obj [("Field5", .obj [("a", .str "Field1")])])]))) =
      .ok "\x7b\"Field5\": \x7b\"a\": \x7b\"Field5\": \x7b\"a\": \"Field1\"\x7d\x7d\x7d\x7d" := by
  refine ⟨?_, fun i => ⟨rfl, rfl⟩, fun u => by cases u; rfl, ?_, ?_, rfl, rfl⟩
  · intro x hx
    rcases hx with ⟨a, b, rfl⟩ | ⟨s, n, rfl, hs⟩ | ⟨xs, rfl, hxs⟩ | ⟨j, rfl, hj⟩
    · refine ⟨Json.dumps (.obj [("Field2", .arr [.int a, .int b])]), rfl, ?_⟩
      have hwf : Json.wfJson (.obj [("Field2", .arr [.int a, .int b])]) = true := by
        simp [Json.wfJson, Json.wfObj, Json.wfArr,
          show Json.wfStr "Field2" = true from by decide]
      rw [SomeEnum.deserialize_dumps_obj _ _ hwf, SomeEnum.from_dict,
        SomeEnum.walk_step2]
      rfl
    · refine ⟨Json.dumps (.obj [("Field3", .obj [("a", .str s), ("b", .int n)])]), rfl, ?_⟩
      have hwf : Json.wfJson (.obj [("Field3", .obj [("a", .str s), ("b", .int n)])]) = true := by
        simp [Json.wfJson, Json.wfObj, hs,
          show Json.wfStr "Field3" = true from by decide,
          show Json.wfStr "a" = true from by decide,
          show Json.wfStr "b" = true from by decide]
      rw [SomeEnum.deserialize_dumps_obj _ _ hwf, SomeEnum.from_dict,
        SomeEnum.walk_step3 none none none none none (.obj [("a", .str s), ("b", .int n)]) rfl]
      rfl
    · obtain ⟨ds, hds, hwds, hfl⟩ := SomeEnum.toDictList_roundtrip xs
        (fun y hy hwy => SomeEnum.dict_roundtrip (SomeEnum.esize y + 1) y (by omega) hwy) hxs
      refine ⟨Json.dumps (.obj [("Field4", .arr ds)]), ?_, ?_⟩
      · simp only [SomeEnum.serialize, SomeEnum.Field1, Option.isSome_none,
          Bool.false_eq_true, if_false, SomeEnum.toDict, hds]
        rfl
      · have hwf : Json.wfJson (.obj [("Field4", .arr ds)]) = true := by
          rw [show Json.wfJson (.obj [("Field4", .arr ds)]) =
            (Json.wfStr "Field4" && Json.wfArr ds && Json.wfObj []) by
            rw [Json.wfJson, Json.wfObj.eq_def]; simp [Json.wfJson]]
          simp [hwds, Json.wfObj, show Json.wfStr "Field4" = true from by decide]
        rw [SomeEnum.deserialize_dumps_obj _ _ hwf, SomeEnum.from_dict,
          SomeEnum.walk_step4 _ _ _ _ _ ds xs hfl]
        rfl
    · refine ⟨Json.dumps (.obj [("Field5", .obj [("a", j)])]), rfl, ?_⟩
      have hwf : Json.wfJson (.obj [("Field5", .obj [("a", j)])]) = true := by
        simp [Json.wfJson, Json.wfObj, hj,
          show Json.wfStr "Field5" = true from by decide,
          show Json.wfStr "a" = true from by decide]
      rw [SomeEnum.deserialize_dumps_obj _ _ hwf, SomeEnum.from_dict,
        SomeEnum.walk_step5 none none none none none (.obj [("a", j)]) rfl]
      rfl
  · intro a s b hs
    have hwv : Json.wfJson (.arr [.int a, .str s, .int b]) = true := by
      simp [Json.wfJson, Json.wfArr, hs]
    rw [show TupleStructure.serialize ⟨(a, s, b)⟩ =
      Json.dumps (.arr [.int a, .str s, .int b]) from rfl]
    rw [TupleStructure.deserialize, TupleStructure.from_json, Json.loads_tuple_wrap _ hwv]
    rfl
  · intro a b c ha hc
    obtain ⟨ds, hds, hwds, hfl⟩ := SomeEnum.toDictList_roundtrip c
      (fun y hy hwy => SomeEnum.dict_roundtrip (SomeEnum.esize y + 1) y (by omega) hwy) hc
    refine ⟨Json.dumps (.obj [("a", .str a), ("b", .int b), ("c", .arr ds)]), ?_, ?_⟩
    · rw [NamedStructure.serialize, NamedStructure.toDict]
      simp [hds]
    · have hwf : Json.wfJson (.obj [("a", .str a), ("b", .int b), ("c", .arr ds)]) = true := by
        simp [Json.wfJson, Json.wfObj, Json.wfArr, ha, hwds,
          show Json.wfStr "a" = true from by decide,
          show Json.wfStr "b" = true from by decide,
          show Json.wfStr "c" = true from by decide]
      rw [NamedStructure.deserialize, NamedStructure.from_json, Json.loads_dumps _ hwf]
      simp [NamedStructure.from_dict, lookupKey, hfl]
      rfl

/-- Witness for C1 at concrete values: the `Field2` pair and the tuple
struct both round-trip exactly. -/
theorem claim_C1_amended_witness :
    (∃ s, SomeEnum.serialize (.mk none (some (10, 12)) none none none) = .ok s ∧
      SomeEnum.deserialize s = .ok (.mk none (some (10, 12)) none none none)) ∧
    TupleStructure.deserialize (TupleStructure.serialize ⟨(10, "x", 12)⟩) = .ok ⟨(10, "x", 12)⟩ :=
  ⟨claim_C1_amended.1 (.mk none (some (10, 12)) none none none) (Or.inl ⟨10, 12, rfl⟩),
   claim_C1_amended.2.2.2.1 10 "x" 12 (by decide)⟩
